import Mathlib

/-!
# EDCA configuration script: flow-statistics export and EDCA attribute setup

A shallow embedding of `src/project_code.cc` (an ns-3 scenario script whose whole
logic lives in `main`).  Three parts of `main` are embedded:

* the EDCA attribute assignments made when `enableEdca` is set (lines 132-151),
* the installation of the UDP traffic sources (lines 156-191),
* the JSON export loop over the flow statistics (lines 201-235).

Modelling conventions.

* C++ `double` values are embedded by the type `Double` below: IEEE-754 binary64 with
  its special values (NaN, the two infinities, the two zeros); a finite non-zero
  value is carried as the rational it denotes, and every operation rounds its exact
  result to the nearest binary64 number, ties to even (`Double.ofRat`), overflowing
  to an infinity and underflowing to a zero.
* ns-3 `Time` is an integer number of nanoseconds (the default resolution);
  `Time::GetSeconds` is library code, taken as the nanosecond count converted to
  `double` and divided by `1e9`.
* `uint32_t` arithmetic is reduced modulo `2 ^ 32` where the source computes with it,
  and a `uint16_t` port argument modulo `2 ^ 16`.
* The simulator itself (everything behind `Simulator::Run`) is external: the flow
  statistics it leaves behind and the flow classifier are inputs of the export.
-/

namespace EdcaConfig

/-! ## IEEE-754 binary64 -/

/-- A C++ `double`: NaN, the infinities, negative zero, or the rational value of a
finite number (`real 0` is positive zero). -/
inductive Double where
  | nan
  | posInf
  | negInf
  | negZero
  | real (q : ℚ)
  deriving DecidableEq

namespace Double

/-- The test `std::isnan`. -/
def isNaN : Double → Bool
  | nan => true
  | _ => false

/-- The test `std::isinf`. -/
def isInf : Double → Bool
  | posInf => true
  | negInf => true
  | _ => false

/-- Whether the value is one of the two zeros. -/
def isZero : Double → Bool
  | negZero => true
  | real q => decide (q = 0)
  | _ => false

/-- The IEEE sign bit (`std::signbit`); NaN is given a clear sign bit. -/
def signBit : Double → Bool
  | negInf => true
  | negZero => true
  | real q => decide (q < 0)
  | _ => false

/-- The rational value of a finite double (both zeros are `0`). -/
def toRat : Double → ℚ
  | real q => q
  | _ => 0

/-- The infinity of the given sign. -/
def mkInf (negative : Bool) : Double := if negative then negInf else posInf

/-- The zero of the given sign. -/
def mkZero (negative : Bool) : Double := if negative then negZero else real 0

/-- Rounding of a rational to the nearest integer, ties to the even one. -/
def roundHalfEven (m : ℚ) : ℤ :=
  if m - ⌊m⌋ < 1 / 2 then ⌊m⌋
  else if 1 / 2 < m - ⌊m⌋ then ⌊m⌋ + 1
  else if ⌊m⌋ % 2 = 0 then ⌊m⌋
  else ⌊m⌋ + 1

/-- The binary exponent of the binade of a positive magnitude, held at `-1022` in the
subnormal range. -/
def binade (a : ℚ) : ℤ := max (Int.log 2 a) (-1022)

/-- The spacing of the binary64 numbers in the binade of `a` (53 significant bits). -/
def ulp (a : ℚ) : ℚ := (2 : ℚ) ^ (binade a - 52)

/-- The multiple of the spacing nearest to a positive magnitude, ties to even. -/
def roundMagnitude (a : ℚ) : ℚ := (roundHalfEven (a / ulp a) : ℚ) * ulp a

/-- The binary64 number nearest to a rational (round to nearest, ties to even): a
rounded magnitude of `2 ^ 1024` or more overflows to an infinity, a rounded magnitude
of zero is a zero of the sign of the argument. -/
def ofRat (q : ℚ) : Double :=
  if q = 0 then real 0
  else if (2 : ℚ) ^ 1024 ≤ roundMagnitude |q| then mkInf (decide (q < 0))
  else if roundMagnitude |q| = 0 then mkZero (decide (q < 0))
  else real (if q < 0 then -roundMagnitude |q| else roundMagnitude |q|)

/-- Conversion of an unsigned integer to `double`. -/
def ofNat (n : Nat) : Double := ofRat n

/-- Conversion of a signed integer to `double`. -/
def ofInt (n : Int) : Double := ofRat n

/-- IEEE multiplication `x * y`. -/
def mul (x y : Double) : Double :=
  if x.isNaN || y.isNaN || (x.isInf && y.isZero) || (x.isZero && y.isInf) then nan
  else if x.isInf || y.isInf then mkInf (xor x.signBit y.signBit)
  else if x.isZero || y.isZero then mkZero (xor x.signBit y.signBit)
  else ofRat (x.toRat * y.toRat)

/-- IEEE division `x / y`. -/
def div (x y : Double) : Double :=
  if x.isNaN || y.isNaN || (x.isInf && y.isInf) || (x.isZero && y.isZero) then nan
  else if x.isInf || y.isZero then mkInf (xor x.signBit y.signBit)
  else if x.isZero || y.isInf then mkZero (xor x.signBit y.signBit)
  else ofRat (x.toRat / y.toRat)

/-- IEEE subtraction `x - y` (round to nearest: an exact zero difference is `+0`,
except `-0 - +0 = -0`). -/
def sub (x y : Double) : Double :=
  if x.isNaN || y.isNaN then nan
  else if x.isInf && y.isInf then (if x.signBit = y.signBit then nan else x)
  else if x.isInf then x
  else if y.isInf then mkInf (!y.signBit)
  else if x.toRat - y.toRat = 0 then
    (if x = negZero ∧ y = real 0 then negZero else real 0)
  else ofRat (x.toRat - y.toRat)

/-- A rational is `exact` when it is a binary64 number: rounding leaves it as it is. -/
def exact (q : ℚ) : Prop := ofRat q = real q

instance (q : ℚ) : Decidable (exact q) := by unfold exact; infer_instance

end Double

/-! ## Flow statistics (the parts of ns-3 `FlowMonitor` the script reads) -/

/-- An ns-3 `Time`: a signed number of nanoseconds. -/
abbrev Time := Int

/-- The accessor `Time::GetSeconds`: the time as a `double` number of seconds, the
nanosecond count converted to `double` and divided by `1e9`. -/
def GetSeconds (t : Time) : Double := Double.div (Double.ofInt t) (Double.real 1000000000)

/-- The constructor `MicroSeconds (v)`: `v` microseconds as a `Time`. -/
def MicroSeconds (v : Nat) : Time := (v : Int) * 1000

/-- A flow identifier (`FlowId`, a `uint32_t`). -/
abbrev FlowId := Nat

/-- The fields of `FlowMonitor::FlowStats` that the export reads, and
`timeFirstRxPacket`, which it does not read. -/
structure FlowStats where
  timeFirstTxPacket : Time
  timeFirstRxPacket : Time
  timeLastRxPacket : Time
  delaySum : Time
  jitterSum : Time
  rxBytes : Nat
  txPackets : Nat
  rxPackets : Nat
  deriving DecidableEq

/-- The classifier's `FiveTuple` of a flow. -/
structure FiveTuple where
  sourceAddress : Nat
  destinationAddress : Nat
  protocol : Nat
  sourcePort : Nat
  destinationPort : Nat
  deriving DecidableEq

/-- Line 222, the dividend `st.rxBytes * 8.0`: the `uint64_t` byte count converted to
`double` and multiplied by `8.0`. -/
def numerator (st : FlowStats) : Double :=
  Double.mul (Double.ofNat st.rxBytes) (Double.real 8)

/-- Line 222, the divisor `timeLastRxPacket.GetSeconds() - timeFirstTxPacket.GetSeconds()`. -/
def denominator (st : FlowStats) : Double :=
  Double.sub (GetSeconds st.timeLastRxPacket) (GetSeconds st.timeFirstTxPacket)

/-- Line 222: `st.rxBytes * 8.0 / (timeLastRxPacket.GetSeconds() - timeFirstTxPacket.GetSeconds())`. -/
def throughput (st : FlowStats) : Double :=
  Double.div (numerator st) (denominator st)

/-- The machine ranges of the fields line 222 reads: `rxBytes` is a `uint64_t`, the
two times are `int64_t` nanosecond counts. -/
def FlowStats.inRange (st : FlowStats) : Prop :=
  st.rxBytes < 2 ^ 64 ∧
  (-(2 ^ 63) ≤ st.timeFirstTxPacket ∧ st.timeFirstTxPacket < 2 ^ 63) ∧
  (-(2 ^ 63) ≤ st.timeLastRxPacket ∧ st.timeLastRxPacket < 2 ^ 63)

instance (st : FlowStats) : Decidable st.inRange := by unfold FlowStats.inRange; infer_instance

/-- Lines 215-220: the label chosen from the destination port.  The bound
`9000 + nBgStations` is `uint32_t` arithmetic; the port is a `uint16_t` promoted
to `int` in `destinationPort - 9000 + 1`. -/
def flowLabel (nBgStations : Nat) (destinationPort : Nat) : String :=
  if destinationPort = 8000 then "VoIP"
  else if destinationPort = 8001 then "Video"
  else if destinationPort = 8002 then "BestEffort"
  else if destinationPort ≥ 9000 ∧ destinationPort < (9000 + nBgStations) % 2 ^ 32 then
    "Background" ++ Nat.repr (destinationPort - 9000 + 1)
  else "Unknown"

/-! ## The JSON export (lines 201-235) -/

/-- The container `std::map<FlowId, FlowStats>` returned by `GetFlowStats`, as the
list of its entries in iteration order, which is ascending `FlowId`. -/
structure FlowStatsContainer where
  entries : List (FlowId × FlowStats)
  ascending : entries.Pairwise (fun a b => a.1 < b.1)

/-- The values written for one flow by one iteration of the export loop. -/
structure FlowRecord where
  flowId : FlowId
  flowLabel : String
  txPackets : Nat
  rxPackets : Nat
  delaySum : Double
  jitterSum : Double
  throughput : Double
  deriving DecidableEq

/-- Lines 211-222: the values computed for the entry `flow` of the statistics map;
`FindFlow` is the classifier lookup. -/
def flowRecord (nBgStations : Nat) (FindFlow : FlowId → FiveTuple)
    (flow : FlowId × FlowStats) : FlowRecord :=
  let id := flow.1
  let st := flow.2
  let t := FindFlow id
  { flowId := id
    flowLabel := flowLabel nBgStations t.destinationPort
    txPackets := st.txPackets
    rxPackets := st.rxPackets
    delaySum := GetSeconds st.delaySum
    jitterSum := GetSeconds st.jitterSum
    throughput := throughput st }

/-- Lines 224-232: the text of one record.  `showDouble` is the stream's
formatting of a `double` (library code, left abstract). -/
def recordText (showDouble : Double → String) (r : FlowRecord) : String :=
  "  \x7b\n"
    ++ "    \"flowId\": " ++ Nat.repr r.flowId ++ ",\n"
    ++ "    \"flowLabel\": \"" ++ r.flowLabel ++ "\",\n"
    ++ "    \"txPackets\": " ++ Nat.repr r.txPackets ++ ",\n"
    ++ "    \"rxPackets\": " ++ Nat.repr r.rxPackets ++ ",\n"
    ++ "    \"delaySum\": " ++ showDouble r.delaySum ++ ",\n"
    ++ "    \"jitterSum\": " ++ showDouble r.jitterSum ++ ",\n"
    ++ "    \"throughput\": " ++ showDouble r.throughput ++ "\n"
    ++ "  \x7d"

/-- Lines 206-233: the export loop; the state is the text written so far and the
flag `first`. -/
def exportLoop (showDouble : Double → String) (nBgStations : Nat)
    (FindFlow : FlowId → FiveTuple) :
    List (FlowId × FlowStats) → String × Bool → String × Bool
  | [], s => s
  | flow :: rest, (out, first) =>
    let out := if !first then out ++ ",\n" else out
    let out := out ++ recordText showDouble (flowRecord nBgStations FindFlow flow)
    exportLoop showDouble nBgStations FindFlow rest (out, false)

/-- Lines 202-234: the whole document written to the output file. -/
def exportJson (showDouble : Double → String) (nBgStations : Nat)
    (FindFlow : FlowId → FiveTuple) (stats : FlowStatsContainer) : String :=
  let out := "[\n"
  let s := exportLoop showDouble nBgStations FindFlow stats.entries (out, true)
  s.1 ++ "\n]\n"

/-- The records of the document, one per iteration of the export loop. -/
def exportRecords (nBgStations : Nat) (FindFlow : FlowId → FiveTuple)
    (stats : FlowStatsContainer) : List FlowRecord :=
  stats.entries.map (flowRecord nBgStations FindFlow)

/-! ## The configuration and the run of `main` -/

/-- The variables of `main` that the command line can set, with the defaults of
lines 18-48. -/
structure Options where
  enableEdca : Bool := true
  enableBackground : Bool := false
  nBgStations : Nat := 5
  simTime : Double := Double.real 120
  warmUpTime : Double := Double.real 1
  output : String := "edca-results.json"
  maxPackets : Nat := 1000000
  packetSizeVoip : Nat := 320
  intervalVoipMs : Double := Double.real 20
  packetSizeVideo : Nat := 1880
  intervalVideoMs : Double := Double.real 15
  packetSizeBe : Nat := 1500
  intervalBeMs : Double := Double.real 2
  voMinCw : Nat := 3
  voMaxCw : Nat := 7
  voAifsn : Nat := 2
  voTxop : Nat := 3008
  viMinCw : Nat := 7
  viMaxCw : Nat := 15
  viAifsn : Nat := 2
  viTxop : Nat := 6016
  beMinCw : Nat := 15
  beMaxCw : Nat := 1023
  beAifsn : Nat := 3
  beTxop : Nat := 0

/-- The attribute values passed to `Config::Set`: `UintegerValue` and `TimeValue`. -/
inductive AttributeValue where
  | UintegerValue (v : Nat)
  | TimeValue (t : Time)
  deriving DecidableEq

/-- The calls `main` makes into the simulator library and the operating system,
in program order. -/
inductive Effect where
  | createNodes (container : String) (n : Nat)
  | networkSetup
  | configSet (path : String) (value : AttributeValue)
  | udpServer (port : Nat)
  | udpClient (port : Nat) (maxPackets : Nat) (intervalMs : Double) (packetSize : Nat)
      (container : String) (node : Nat) (startSeconds : Double)
  | flowMonitorInstallAll
  | simulatorStop (seconds : Double)
  | simulatorRun
  | fileOutput (path : String) (content : String)
  | stdoutPrint (text : String)
  | simulatorDestroy
  deriving DecidableEq

open Effect AttributeValue in
/-- Lines 132-151: the `Config::Set` calls of the manual EDCA configuration. -/
def edcaConfig (o : Options) : List Effect :=
  if o.enableEdca then
    [ configSet "/NodeList/*/DeviceList/*/$ns3::WifiNetDevice/Mac/VO_EdcaTxopN/MinCw" (UintegerValue o.voMinCw),
      configSet "/NodeList/*/DeviceList/*/$ns3::WifiNetDevice/Mac/VO_EdcaTxopN/MaxCw" (UintegerValue o.voMaxCw),
      configSet "/NodeList/*/DeviceList/*/$ns3::WifiNetDevice/Mac/VO_EdcaTxopN/Aifsn" (UintegerValue o.voAifsn),
      configSet "/NodeList/*/DeviceList/*/$ns3::WifiNetDevice/Mac/VO_EdcaTxopN/TxopLimit" (TimeValue (MicroSeconds o.voTxop)),
      configSet "/NodeList/*/DeviceList/*/$ns3::WifiNetDevice/Mac/VI_EdcaTxopN/MinCw" (UintegerValue o.viMinCw),
      configSet "/NodeList/*/DeviceList/*/$ns3::WifiNetDevice/Mac/VI_EdcaTxopN/MaxCw" (UintegerValue o.viMaxCw),
      configSet "/NodeList/*/DeviceList/*/$ns3::WifiNetDevice/Mac/VI_EdcaTxopN/Aifsn" (UintegerValue o.viAifsn),
      configSet "/NodeList/*/DeviceList/*/$ns3::WifiNetDevice/Mac/VI_EdcaTxopN/TxopLimit" (TimeValue (MicroSeconds o.viTxop)),
      configSet "/NodeList/*/DeviceList/*/$ns3::WifiNetDevice/Mac/BE_EdcaTxopN/MinCw" (UintegerValue o.beMinCw),
      configSet "/NodeList/*/DeviceList/*/$ns3::WifiNetDevice/Mac/BE_EdcaTxopN/MaxCw" (UintegerValue o.beMaxCw),
      configSet "/NodeList/*/DeviceList/*/$ns3::WifiNetDevice/Mac/BE_EdcaTxopN/Aifsn" (UintegerValue o.beAifsn),
      configSet "/NodeList/*/DeviceList/*/$ns3::WifiNetDevice/Mac/BE_EdcaTxopN/TxopLimit" (TimeValue (MicroSeconds o.beTxop)) ]
  else []

/-- Lines 184-185: the port `9000 + i` of background station `i`, computed in
`uint32_t` and passed as a `uint16_t` argument. -/
def bgPort (i : Nat) : Nat := (9000 + i) % 2 ^ 32 % 2 ^ 16

open Effect in
/-- Lines 182-190: the server and client installed for background station `i`. -/
def bgApplication (o : Options) (i : Nat) : List Effect :=
  [ udpServer (bgPort i),
    udpClient (bgPort i) o.maxPackets o.intervalBeMs o.packetSizeBe "bgNodes" i o.warmUpTime ]

open Effect in
/-- Lines 156-191: the UDP servers and clients installed. -/
def installApplications (o : Options) : List Effect :=
  [ udpServer 8000,
    udpClient 8000 o.maxPackets o.intervalVoipMs o.packetSizeVoip "staNodes" 0 o.warmUpTime,
    udpServer 8001,
    udpClient 8001 o.maxPackets o.intervalVideoMs o.packetSizeVideo "staNodes" 1 o.warmUpTime,
    udpServer 8002,
    udpClient 8002 o.maxPackets o.intervalBeMs o.packetSizeBe "staNodes" 2 o.warmUpTime ]
  ++ (if o.enableBackground then
        ((List.range o.nBgStations).map (bgApplication o)).flatten
      else [])

open Effect in
/-- The body of `main` after command-line parsing (lines 86-239): the calls made,
in order, and the exit status.  `stats` and `FindFlow` are what the flow monitor
and its classifier hold once `Simulator::Run` has returned. -/
def main (showDouble : Double → String) (o : Options) (stats : FlowStatsContainer)
    (FindFlow : FlowId → FiveTuple) : List Effect × Int :=
  ( [ createNodes "staNodes" 3, createNodes "apNode" 1 ]
    ++ (if o.enableBackground then [createNodes "bgNodes" o.nBgStations] else [])
    ++ [ networkSetup ]
    ++ edcaConfig o
    ++ installApplications o
    ++ [ flowMonitorInstallAll,
         simulatorStop o.simTime,
         simulatorRun,
         fileOutput o.output (exportJson showDouble o.nBgStations FindFlow stats),
         stdoutPrint ("Simulation finished. Output: " ++ o.output ++ "\n"),
         simulatorDestroy ],
    0 )

/-! ## Reading the EDCA profile out of the attribute assignments -/

/-- The attribute path the script uses for attribute `attr` of access category `ac`
(`ac` one of `VO`, `VI`, `BE`). -/
def edcaPath (ac attr : String) : String :=
  "/NodeList/*/DeviceList/*/$ns3::WifiNetDevice/Mac/" ++ ac ++ "_EdcaTxopN/" ++ attr

/-- The value last assigned to `path` by the calls in `trace`, if any. -/
def assigned (path : String) : List Effect → Option AttributeValue
  | [] => none
  | Effect.configSet p v :: rest =>
    match assigned path rest with
    | some w => some w
    | none => if p = path then some v else none
  | _ :: rest => assigned path rest

/-- An access-category profile: contention-window bounds, AIFSN and TXOP limit. -/
structure AccessCategoryProfile where
  minContentionWindow : Nat
  maxContentionWindow : Nat
  arbitrationInterFrameSpaceNumber : Nat
  transmissionOpportunityLimit : Time
  deriving DecidableEq

/-- The profile the calls in `trace` apply to access category `ac`: defined when
all four attributes of the category are assigned. -/
def appliedProfile (trace : List Effect) (ac : String) : Option AccessCategoryProfile :=
  match assigned (edcaPath ac "MinCw") trace, assigned (edcaPath ac "MaxCw") trace,
      assigned (edcaPath ac "Aifsn") trace, assigned (edcaPath ac "TxopLimit") trace with
  | some (AttributeValue.UintegerValue a), some (AttributeValue.UintegerValue b),
      some (AttributeValue.UintegerValue c), some (AttributeValue.TimeValue t) => some ⟨a, b, c, t⟩
  | _, _, _, _ => none

/-- Whether a call is a `Config::Set` attribute assignment. -/
def Effect.isConfigSet : Effect → Bool
  | Effect.configSet _ _ => true
  | _ => false

/-- The default configuration with the voice contention window inverted
(`voMinCw = 7 > voMaxCw = 3`). -/
def invertedVoiceOptions : Options := { voMinCw := 7, voMaxCw := 3 }

/-- The default configuration with EDCA differentiation switched off. -/
def edcaDisabledOptions : Options := { enableEdca := false }

/-- A statistics map without flows. -/
def noFlows : FlowStatsContainer := ⟨[], List.Pairwise.nil⟩

/-- A classifier that maps every flow to a UDP flow towards port 8000. -/
def voipClassifier : FlowId → FiveTuple := fun _ => ⟨0, 0, 17, 49153, 8000⟩

/-- A JSON object as the document lays it out: the members `"name": value`, one per
line and indented by four blanks, separated by commas, between braces indented by
two blanks. -/
def jsonObject (members : List (String × String)) : String :=
  "  \x7b\n"
    ++ String.intercalate ",\n" (members.map fun m => "    \"" ++ m.1 ++ "\": " ++ m.2)
    ++ "\n  \x7d"

/-- The members of the record of a flow, in the order written: the flow id and the
two packet counts in decimal, the label between double quotes, the three `double`
values as the stream formats them. -/
def recordMembers (showDouble : Double → String) (id : FlowId) (label : String)
    (txPackets rxPackets : Nat) (delaySum jitterSum throughput : Double) :
    List (String × String) :=
  [ ("flowId", Nat.repr id),
    ("flowLabel", "\"" ++ label ++ "\""),
    ("txPackets", Nat.repr txPackets),
    ("rxPackets", Nat.repr rxPackets),
    ("delaySum", showDouble delaySum),
    ("jitterSum", showDouble jitterSum),
    ("throughput", showDouble throughput) ]

/-! ## Decimal numerals -/

theorem background_ne_Unknown (x : String) : "Background" ++ x ≠ "Unknown" := by
  intro h
  have := congrArg String.data h
  simp [String.data_append] at this

theorem intercalate_go_append (s : String) (l : List String) :
    ∀ a b : String, String.intercalate.go (a ++ b) s l = a ++ String.intercalate.go b s l := by
  induction l with
  | nil => intro a b; simp [String.intercalate.go]
  | cons x xs ih =>
    intro a b
    simp only [String.intercalate.go]
    rw [String.append_assoc, String.append_assoc, ih, String.append_assoc]

theorem exportLoop_eq_go (showDouble : Double → String) (nBgStations : Nat)
    (FindFlow : FlowId → FiveTuple) (l : List (FlowId × FlowStats)) :
    ∀ acc : String,
      (exportLoop showDouble nBgStations FindFlow l (acc, false)).1 =
        String.intercalate.go acc ",\n"
          (l.map (fun f => recordText showDouble (flowRecord nBgStations FindFlow f))) := by
  induction l with
  | nil => intro acc; simp [exportLoop, String.intercalate.go]
  | cons f fs ih =>
    intro acc
    simp only [exportLoop, List.map, String.intercalate.go]
    rw [← ih]
    simp

theorem exportLoop_eq_intercalate (showDouble : Double → String) (nBgStations : Nat)
    (FindFlow : FlowId → FiveTuple) (l : List (FlowId × FlowStats)) (acc : String) :
    (exportLoop showDouble nBgStations FindFlow l (acc, true)).1 =
      acc ++ String.intercalate ",\n"
        (l.map (fun f => recordText showDouble (flowRecord nBgStations FindFlow f))) := by
  cases l with
  | nil => simp [exportLoop, String.intercalate]
  | cons f fs =>
    simp only [exportLoop, List.map, String.intercalate]
    rw [← intercalate_go_append, ← exportLoop_eq_go]
    simp

theorem intercalate_go_length (s : String) (l : List String) :
    ∀ acc : String, acc.length ≤ (String.intercalate.go acc s l).length := by
  induction l with
  | nil => intro acc; simp [String.intercalate.go]
  | cons x xs ih =>
    intro acc
    simp only [String.intercalate.go]
    have := ih (acc ++ s ++ x)
    simp only [String.length_append] at this
    omega

theorem recordText_length_pos (showDouble : Double → String) (r : FlowRecord) :
    0 < (recordText showDouble r).length := by
  simp only [recordText, String.length_append]
  have : "  \x7b\n".length = 4 := by decide
  omega

theorem intercalate_go_emits (s x : String) (l : List String) :
    ∀ acc : String, x ∈ l → ∃ pre post, String.intercalate.go acc s l = pre ++ x ++ post := by
  induction l with
  | nil => intro acc h; simp at h
  | cons y ys ih =>
    intro acc h
    simp only [String.intercalate.go]
    rcases List.mem_cons.1 h with rfl | h
    · refine ⟨acc ++ s, String.intercalate.go "" s ys, ?_⟩
      rw [← intercalate_go_append]; simp
    · exact ih _ h

theorem intercalate_emits (s x : String) (l : List String) (h : x ∈ l) :
    ∃ pre post, String.intercalate s l = pre ++ x ++ post := by
  cases l with
  | nil => simp at h
  | cons y ys =>
    simp only [String.intercalate]
    rcases List.mem_cons.1 h with rfl | h
    · refine ⟨"", String.intercalate.go "" s ys, ?_⟩
      rw [String.empty_append, ← intercalate_go_append]; simp
    · exact intercalate_go_emits s x ys _ h

/-! ## Binary64 rounding -/

namespace Double

theorem roundHalfEven_eq_of_near {m : ℚ} {n : ℤ} (h : |m - n| < 1 / 2) : roundHalfEven m = n := by
  obtain ⟨h1, h2⟩ := abs_lt.1 h
  by_cases hmn : (n : ℚ) ≤ m
  · have hf : ⌊m⌋ = n := Int.floor_eq_iff.2 ⟨hmn, by linarith⟩
    unfold roundHalfEven
    rw [hf, if_pos h2]
  · have hlt : m < n := not_le.1 hmn
    have hf : ⌊m⌋ = n - 1 := Int.floor_eq_iff.2 ⟨by push_cast; linarith, by push_cast; linarith⟩
    unfold roundHalfEven
    rw [hf]
    push_cast
    rw [if_neg (by linarith), if_pos (by linarith)]
    ring

theorem floor_le_roundHalfEven (m : ℚ) : ⌊m⌋ ≤ roundHalfEven m := by
  unfold roundHalfEven
  split_ifs <;> omega

theorem roundHalfEven_le_floor_add_one (m : ℚ) : roundHalfEven m ≤ ⌊m⌋ + 1 := by
  unfold roundHalfEven
  split_ifs <;> omega

theorem le_roundHalfEven {m : ℚ} {z : ℤ} (h : (z : ℚ) ≤ m) : z ≤ roundHalfEven m :=
  le_trans (Int.le_floor.2 h) (floor_le_roundHalfEven m)

theorem roundHalfEven_le {m : ℚ} {z : ℤ} (h : m ≤ z) : roundHalfEven m ≤ z := by
  rcases eq_or_lt_of_le h with heq | hlt
  · have : roundHalfEven m = z := roundHalfEven_eq_of_near (by rw [heq]; norm_num)
    omega
  · have hf : ⌊m⌋ < z := Int.floor_lt.2 hlt
    have := roundHalfEven_le_floor_add_one m
    omega

theorem binade_eq {a : ℚ} {e : ℤ} (ha : 0 < a) (he : -1022 ≤ e) (hlo : (2 : ℚ) ^ e ≤ a)
    (hhi : a < (2 : ℚ) ^ (e + 1)) : binade a = e := by
  have h1 : e ≤ Int.log 2 a := (Int.zpow_le_iff_le_log (by norm_num) ha).1 (by exact_mod_cast hlo)
  have h2 : Int.log 2 a < e + 1 := (Int.lt_zpow_iff_log_lt (by norm_num) ha).1 (by exact_mod_cast hhi)
  unfold binade
  omega

theorem lt_two_zpow_binade {a : ℚ} : a < (2 : ℚ) ^ (binade a + 1) := by
  have h1 : a < ((2 : ℕ) : ℚ) ^ (Int.log 2 a + 1) := Int.lt_zpow_succ_log_self (by norm_num) a
  have h2 : ((2 : ℕ) : ℚ) ^ (Int.log 2 a + 1) ≤ ((2 : ℕ) : ℚ) ^ (binade a + 1) :=
    zpow_le_zpow_right₀ (by norm_num) (by unfold binade; omega)
  exact_mod_cast lt_of_lt_of_le h1 h2

theorem two_zpow_binade_le {a : ℚ} (h : (2 : ℚ) ^ (-1022 : ℤ) ≤ a) : (2 : ℚ) ^ binade a ≤ a := by
  have ha : 0 < a := lt_of_lt_of_le (by positivity) h
  by_cases hl : -1022 ≤ Int.log 2 a
  · have hb : binade a = Int.log 2 a := by unfold binade; omega
    rw [hb]
    exact_mod_cast Int.zpow_log_le_self (b := 2) (by norm_num) ha
  · have hb : binade a = -1022 := by unfold binade; omega
    rw [hb]; exact h

theorem ulp_pos (a : ℚ) : 0 < ulp a := by unfold ulp; positivity

theorem two_pow_mul_ulp (a : ℚ) (k : ℤ) : (2 : ℚ) ^ k * ulp a = (2 : ℚ) ^ (k + binade a - 52) := by
  unfold ulp
  rw [← zpow_add₀ (by norm_num : (2 : ℚ) ≠ 0)]
  congr 1
  ring

theorem roundMagnitude_nonneg {a : ℚ} (ha : 0 ≤ a) : 0 ≤ roundMagnitude a := by
  unfold roundMagnitude
  have hm : ((0 : ℤ) : ℚ) ≤ a / ulp a := by
    have := ulp_pos a
    push_cast; positivity
  have := le_roundHalfEven hm
  have h0 : (0 : ℚ) ≤ (roundHalfEven (a / ulp a) : ℚ) := by exact_mod_cast this
  exact mul_nonneg h0 (le_of_lt (ulp_pos a))

theorem roundMagnitude_le (a : ℚ) : roundMagnitude a ≤ (2 : ℚ) ^ (binade a + 1) := by
  have hu := ulp_pos a
  have hlt : a < (2 : ℚ) ^ (binade a + 1) := lt_two_zpow_binade
  have hk : (2 : ℚ) ^ (53 : ℤ) * ulp a = (2 : ℚ) ^ (binade a + 1) := by
    rw [two_pow_mul_ulp]; congr 1; ring
  have hm : a / ulp a ≤ (((2 : ℤ) ^ 53 : ℤ) : ℚ) := by
    rw [div_le_iff₀ hu]
    have : ((((2 : ℤ) ^ 53 : ℤ) : ℚ)) = (2 : ℚ) ^ (53 : ℤ) := by norm_num
    rw [this, hk]; exact le_of_lt hlt
  have hr := roundHalfEven_le hm
  have hr2 : (roundHalfEven (a / ulp a) : ℚ) ≤ (2 : ℚ) ^ (53 : ℤ) := by
    have : ((roundHalfEven (a / ulp a) : ℤ) : ℚ) ≤ (((2 : ℤ) ^ 53 : ℤ) : ℚ) := by exact_mod_cast hr
    refine le_trans this ?_
    norm_num
  unfold roundMagnitude
  rw [← hk]
  exact mul_le_mul_of_nonneg_right hr2 (le_of_lt hu)

theorem le_roundMagnitude {a : ℚ} (h : (2 : ℚ) ^ (-1022 : ℤ) ≤ a) :
    (2 : ℚ) ^ binade a ≤ roundMagnitude a := by
  have hu := ulp_pos a
  have hlo := two_zpow_binade_le h
  have hk : (2 : ℚ) ^ (52 : ℤ) * ulp a = (2 : ℚ) ^ binade a := by
    rw [two_pow_mul_ulp]; congr 1; ring
  have hm : (((2 : ℤ) ^ 52 : ℤ) : ℚ) ≤ a / ulp a := by
    rw [le_div_iff₀ hu]
    have : ((((2 : ℤ) ^ 52 : ℤ) : ℚ)) = (2 : ℚ) ^ (52 : ℤ) := by norm_num
    rw [this, hk]; exact hlo
  have hr := le_roundHalfEven hm
  have hr2 : (2 : ℚ) ^ (52 : ℤ) ≤ (roundHalfEven (a / ulp a) : ℚ) := by
    have : (((2 : ℤ) ^ 52 : ℤ) : ℚ) ≤ ((roundHalfEven (a / ulp a) : ℤ) : ℚ) := by exact_mod_cast hr
    refine le_trans ?_ this
    norm_num
  unfold roundMagnitude
  rw [← hk]
  exact mul_le_mul_of_nonneg_right hr2 (le_of_lt hu)


theorem ofRat_of_pos {q : ℚ} (hq : 0 < q) :
    ofRat q = if (2 : ℚ) ^ 1024 ≤ roundMagnitude q then posInf else real (roundMagnitude q) := by
  have h0 : q ≠ 0 := ne_of_gt hq
  have hn : ¬ q < 0 := not_lt.2 (le_of_lt hq)
  unfold ofRat
  rw [abs_of_pos hq]
  by_cases hb : (2 : ℚ) ^ 1024 ≤ roundMagnitude q
  · simp [h0, hb, hn, mkInf]
  · by_cases hz : roundMagnitude q = 0
    · rw [if_neg h0, if_neg hb, if_pos hz, if_neg hb, hz]; simp [hn, mkZero]
    · simp [h0, hb, hn, hz]

theorem ofRat_of_neg {q : ℚ} (hq : q < 0) :
    ofRat q = if (2 : ℚ) ^ 1024 ≤ roundMagnitude (-q) then negInf
      else if roundMagnitude (-q) = 0 then negZero else real (-roundMagnitude (-q)) := by
  have h0 : q ≠ 0 := ne_of_lt hq
  unfold ofRat
  rw [abs_of_neg hq]
  by_cases hb : (2 : ℚ) ^ 1024 ≤ roundMagnitude (-q)
  · simp [h0, hb, hq, mkInf]
  · by_cases hz : roundMagnitude (-q) = 0
    · rw [if_neg h0, if_neg hb, if_pos hz, if_neg hb, if_pos hz]; simp [hq, mkZero]
    · simp [h0, hb, hq, hz]

theorem ofRat_isNaN (q : ℚ) : (ofRat q).isNaN = false := by
  rcases lt_trichotomy q 0 with h | h | h
  · rw [ofRat_of_neg h]; split_ifs <;> rfl
  · subst h; simp [ofRat, isNaN]
  · rw [ofRat_of_pos h]; split_ifs <;> rfl

theorem binade_le_of_lt {a : ℚ} (ha : 0 < a) (h : a < (2 : ℚ) ^ (1023 : ℤ)) : binade a ≤ 1022 := by
  have h2 : Int.log 2 a < 1023 :=
    (Int.lt_zpow_iff_log_lt (by norm_num) ha).1 (by exact_mod_cast h)
  unfold binade
  omega

theorem roundMagnitude_lt_of_lt {a : ℚ} (ha : 0 < a) (h : a < (2 : ℚ) ^ (1023 : ℤ)) :
    roundMagnitude a < (2 : ℚ) ^ 1024 := by
  have he := binade_le_of_lt ha h
  have h1 := roundMagnitude_le a
  have h2 : (2 : ℚ) ^ (binade a + 1) ≤ (2 : ℚ) ^ (1023 : ℤ) :=
    zpow_le_zpow_right₀ (by norm_num) (by omega)
  have h3 : (2 : ℚ) ^ (1023 : ℤ) < (2 : ℚ) ^ 1024 := by norm_num
  linarith

/-- A rational of magnitude below `2 ^ 1023` rounds to a finite number. -/
theorem ofRat_isInf_of_lt {q : ℚ} (h : |q| < (2 : ℚ) ^ (1023 : ℤ)) : (ofRat q).isInf = false := by
  rcases lt_trichotomy q 0 with hq | hq | hq
  · rw [abs_of_neg hq] at h
    have := roundMagnitude_lt_of_lt (neg_pos.2 hq) h
    rw [ofRat_of_neg hq, if_neg (not_le.2 this)]
    split_ifs <;> rfl
  · subst hq; simp [ofRat, isInf]
  · rw [abs_of_pos hq] at h
    have := roundMagnitude_lt_of_lt hq h
    rw [ofRat_of_pos hq, if_neg (not_le.2 this)]
    rfl

/-- A finite rounding result has magnitude below `2 ^ 1024`. -/
theorem abs_lt_of_ofRat_eq_real {q r : ℚ} (h : ofRat q = real r) : |r| < (2 : ℚ) ^ 1024 := by
  rcases lt_trichotomy q 0 with hq | hq | hq
  · rw [ofRat_of_neg hq] at h
    split_ifs at h with hb hz
    have hr : r = -roundMagnitude (-q) := by injection h with h; exact h.symm
    have hnn := roundMagnitude_nonneg (le_of_lt (neg_pos.2 hq))
    rw [hr, abs_neg, abs_of_nonneg hnn]
    exact not_le.1 hb
  · subst hq
    have hr : r = 0 := by
      simp only [ofRat, if_true] at h
      injection h with h; exact h.symm
    rw [hr]; norm_num
  · rw [ofRat_of_pos hq] at h
    split_ifs at h with hb
    have hr : r = roundMagnitude q := by injection h with h; exact h.symm
    have hnn := roundMagnitude_nonneg (le_of_lt hq)
    rw [hr, abs_of_nonneg hnn]
    exact not_le.1 hb

/-- A rational in `[1, 2 ^ 1023)` rounds to a finite number that is at least 1. -/
theorem ofRat_of_one_le {q : ℚ} (h1 : 1 ≤ q) (h2 : q < (2 : ℚ) ^ (1023 : ℤ)) :
    ∃ w : ℚ, ofRat q = real w ∧ 1 ≤ w := by
  have hq : 0 < q := lt_of_lt_of_le one_pos h1
  have hsub : (2 : ℚ) ^ (-1022 : ℤ) ≤ q := le_trans (by norm_num) h1
  have hlt := roundMagnitude_lt_of_lt hq h2
  refine ⟨roundMagnitude q, ?_, ?_⟩
  · rw [ofRat_of_pos hq, if_neg (not_le.2 hlt)]
  · have hlog : (0 : ℤ) ≤ Int.log 2 q :=
      (Int.zpow_le_iff_le_log (by norm_num) hq).1 (by simpa using h1)
    have hb : 0 ≤ binade q := le_trans hlog (le_max_left _ _)
    have h3 : (1 : ℚ) ≤ (2 : ℚ) ^ binade q := one_le_zpow₀ (by norm_num) hb
    exact le_trans h3 (le_roundMagnitude hsub)

/-- Rounding certificate: a positive rational in the binade of exponent `e` whose
quotient by the spacing `2 ^ (e - 52)` is nearer than one half to the integer `n`
rounds to `n * 2 ^ (e - 52)`. -/
theorem ofRat_eq_of_near {q : ℚ} (e n : ℤ) (hq : 0 < q) (he : -1022 ≤ e)
    (hlo : (2 : ℚ) ^ e ≤ q) (hhi : q < (2 : ℚ) ^ (e + 1))
    (hn : |q / (2 : ℚ) ^ (e - 52) - n| < 1 / 2)
    (hv : (n : ℚ) * (2 : ℚ) ^ (e - 52) < (2 : ℚ) ^ 1024) :
    ofRat q = real ((n : ℚ) * (2 : ℚ) ^ (e - 52)) := by
  have hb := binade_eq hq he hlo hhi
  have hr : roundMagnitude q = (n : ℚ) * (2 : ℚ) ^ (e - 52) := by
    unfold roundMagnitude ulp
    rw [hb, roundHalfEven_eq_of_near hn]
  rw [ofRat_of_pos hq, hr, if_neg (not_le.2 hv)]

/-- Rounding certificate for a negative rational. -/
theorem ofRat_eq_of_near_neg {q : ℚ} (e n : ℤ) (hq : q < 0) (he : -1022 ≤ e)
    (hlo : (2 : ℚ) ^ e ≤ -q) (hhi : -q < (2 : ℚ) ^ (e + 1))
    (hn : |(-q) / (2 : ℚ) ^ (e - 52) - n| < 1 / 2)
    (hv : (n : ℚ) * (2 : ℚ) ^ (e - 52) < (2 : ℚ) ^ 1024) (hn0 : n ≠ 0) :
    ofRat q = real (-((n : ℚ) * (2 : ℚ) ^ (e - 52))) := by
  have hb := binade_eq (neg_pos.2 hq) he hlo hhi
  have hr : roundMagnitude (-q) = (n : ℚ) * (2 : ℚ) ^ (e - 52) := by
    unfold roundMagnitude ulp
    rw [hb, roundHalfEven_eq_of_near hn]
  have hz : ¬ (n : ℚ) * (2 : ℚ) ^ (e - 52) = 0 := by
    have : (n : ℚ) ≠ 0 := by exact_mod_cast hn0
    have h2 : (2 : ℚ) ^ (e - 52) ≠ 0 := by positivity
    exact mul_ne_zero this h2
  rw [ofRat_of_neg hq, hr, if_neg (not_le.2 hv), if_neg hz]


end Double

/-! ## Throughput -/

theorem Double.div_real_isNaN {w : ℚ} {d : Double} (hw : w ≠ 0) (hd : d.isNaN = false) :
    (Double.div (Double.real w) d).isNaN = false := by
  unfold Double.div
  have h1 : (Double.real w).isNaN = false := rfl
  have h2 : (Double.real w).isInf = false := rfl
  have h3 : (Double.real w).isZero = false := by simp [Double.isZero, hw]
  rw [h1, h2, h3, hd]
  simp only [Bool.false_or, Bool.false_and, Bool.or_self, Bool.false_eq_true, if_false]
  split_ifs
  · cases xor (Double.real w).signBit d.signBit <;> rfl
  · cases xor (Double.real w).signBit d.signBit <;> rfl
  · exact Double.ofRat_isNaN _

theorem Double.div_zero_eq_nan_iff {d : Double} (hd : d.isNaN = false) :
    Double.div (Double.real 0) d = Double.nan ↔ d.isZero = true := by
  unfold Double.div
  have h1 : (Double.real 0).isNaN = false := rfl
  have h2 : (Double.real 0).isInf = false := rfl
  have h3 : (Double.real 0).isZero = true := by simp [Double.isZero]
  rw [h1, h2, h3, hd]
  by_cases hz : d.isZero = true
  · simp [hz]
  · have hz2 : d.isZero = false := by simpa using hz
    simp only [hz2, Bool.false_or, Bool.false_and, Bool.or_self, Bool.false_eq_true, if_false,
      Bool.and_false, Bool.true_or, if_true]
    constructor
    · intro h
      cases hx : xor (Double.real 0).signBit d.signBit <;> simp [hx, Double.mkZero] at h
    · intro h; exact absurd h (by simp)


theorem Double.ofRat_one_le_bound {q : ℚ} (h1 : 1 ≤ q) (h2 : q < (2 : ℚ) ^ (1023 : ℤ)) :
    ∃ w : ℚ, Double.ofRat q = Double.real w ∧ 1 ≤ w ∧ w ≤ 2 * q := by
  have hq : 0 < q := lt_of_lt_of_le one_pos h1
  have hsub : (2 : ℚ) ^ (-1022 : ℤ) ≤ q := le_trans (by norm_num) h1
  obtain ⟨w, hw, hw1⟩ := Double.ofRat_of_one_le h1 h2
  refine ⟨w, hw, hw1, ?_⟩
  have hlt := Double.roundMagnitude_lt_of_lt hq h2
  rw [Double.ofRat_of_pos hq, if_neg (not_le.2 hlt)] at hw
  have hwv : w = Double.roundMagnitude q := by injection hw with hw; exact hw.symm
  have h3 := Double.roundMagnitude_le q
  have h4 := Double.two_zpow_binade_le hsub
  have h5 : (2 : ℚ) ^ (Double.binade q + 1) = 2 * (2 : ℚ) ^ Double.binade q := by
    rw [zpow_add₀ (by norm_num : (2 : ℚ) ≠ 0)]; ring
  rw [hwv]; linarith

theorem numerator_of_zero {st : FlowStats} (h : st.rxBytes = 0) :
    numerator st = Double.real 0 := by
  unfold numerator Double.ofNat
  rw [h]
  simp [Double.ofRat, Double.mul, Double.isNaN, Double.isInf, Double.isZero, Double.mkZero,
    Double.signBit]

theorem numerator_of_pos {st : FlowStats} (h : 0 < st.rxBytes) (hr : st.rxBytes < 2 ^ 64) :
    ∃ w : ℚ, numerator st = Double.real w ∧ 1 ≤ w := by
  have h1 : (1 : ℚ) ≤ (st.rxBytes : ℚ) := by exact_mod_cast h
  have h2 : (st.rxBytes : ℚ) < (2 : ℚ) ^ (64 : ℕ) := by exact_mod_cast hr
  have h3 : (st.rxBytes : ℚ) < (2 : ℚ) ^ (1023 : ℤ) := lt_trans h2 (by norm_num)
  obtain ⟨v, hv, hv1, hv2⟩ := Double.ofRat_one_le_bound h1 h3
  have h4 : (1 : ℚ) ≤ v * 8 := by linarith
  have h5 : v * 8 < (2 : ℚ) ^ (1023 : ℤ) := by
    have : v * 8 < (2 : ℚ) ^ (68 : ℕ) := by
      have : (2 : ℚ) ^ (68 : ℕ) = 16 * (2 : ℚ) ^ (64 : ℕ) := by norm_num
      rw [this]; linarith
    exact lt_trans this (by norm_num)
  obtain ⟨w, hw, hw1⟩ := Double.ofRat_of_one_le h4 h5
  refine ⟨w, ?_, hw1⟩
  unfold numerator Double.ofNat
  rw [hv]
  have hv0 : v ≠ 0 := by linarith
  simp [Double.mul, Double.isNaN, Double.isInf, Double.isZero, Double.toRat, hv0, hw]

/-- The second-value of an `int64_t` time is a finite number. -/
theorem GetSeconds_finite {t : Time} (h1 : -(2 ^ 63) ≤ t) (h2 : t < 2 ^ 63) :
    (GetSeconds t).isNaN = false ∧ (GetSeconds t).isInf = false := by
  have habs : |(t : ℚ)| < (2 : ℚ) ^ (1023 : ℤ) := by
    have ha : |(t : ℚ)| ≤ (2 : ℚ) ^ (63 : ℕ) := by
      rw [abs_le]
      constructor
      · have : ((-(2 ^ 63) : ℤ) : ℚ) ≤ (t : ℚ) := by exact_mod_cast h1
        push_cast at this; linarith
      · have : (t : ℚ) < (((2 : ℤ) ^ 63 : ℤ) : ℚ) := by exact_mod_cast h2
        push_cast at this; linarith
    exact lt_of_le_of_lt ha (by norm_num)
  have hn := Double.ofRat_isNaN (t : ℚ)
  have hi := Double.ofRat_isInf_of_lt habs
  unfold GetSeconds Double.ofInt
  cases hx : Double.ofRat (t : ℚ) with
  | nan => rw [hx] at hn; simp [Double.isNaN] at hn
  | posInf => rw [hx] at hi; simp [Double.isInf] at hi
  | negInf => rw [hx] at hi; simp [Double.isInf] at hi
  | negZero =>
    constructor <;> simp [Double.div, Double.isNaN, Double.isInf, Double.isZero, Double.mkZero,
      Double.signBit]
  | real r =>
    by_cases hr : r = 0
    · subst hr
      constructor <;> norm_num [Double.div, Double.isNaN, Double.isInf, Double.isZero,
        Double.mkZero, Double.signBit]
    · have hlt := Double.abs_lt_of_ofRat_eq_real hx
      have hq : |r / 1000000000| < (2 : ℚ) ^ (1023 : ℤ) := by
        rw [abs_div, abs_of_pos (by norm_num : (0 : ℚ) < 1000000000)]
        rw [div_lt_iff₀ (by norm_num)]
        have : (2 : ℚ) ^ 1024 ≤ (2 : ℚ) ^ (1023 : ℤ) * 1000000000 := by norm_num
        linarith
      have hd : Double.div (Double.real r) (Double.real 1000000000) =
          Double.ofRat (r / 1000000000) := by
        simp [Double.div, Double.isNaN, Double.isInf, Double.isZero, Double.toRat, hr]
      rw [hd]
      exact ⟨Double.ofRat_isNaN _, Double.ofRat_isInf_of_lt hq⟩

theorem Double.sub_isNaN {x y : Double} (hx : x.isNaN = false) (hxi : x.isInf = false)
    (hy : y.isNaN = false) (hyi : y.isInf = false) : (Double.sub x y).isNaN = false := by
  unfold Double.sub
  rw [hx, hy, hxi, hyi]
  simp only [Bool.or_self, Bool.and_self, Bool.false_eq_true, if_false]
  split_ifs
  · rfl
  · rfl
  · exact Double.ofRat_isNaN _

theorem Double.sub_self {x : Double} (hx : x.isNaN = false) (hxi : x.isInf = false) :
    Double.sub x x = Double.real 0 := by
  unfold Double.sub
  rw [hx, hxi]
  simp only [Bool.or_self, Bool.and_self, Bool.false_eq_true, if_false, sub_self, if_true]
  cases x <;> simp

theorem denominator_isNaN {st : FlowStats} (h : st.inRange) : (denominator st).isNaN = false := by
  obtain ⟨_, hf, hl⟩ := h
  obtain ⟨h1, h2⟩ := GetSeconds_finite hf.1 hf.2
  obtain ⟨h3, h4⟩ := GetSeconds_finite hl.1 hl.2
  exact Double.sub_isNaN h3 h4 h1 h2

theorem denominator_of_eq {st : FlowStats} (h : st.inRange)
    (heq : st.timeLastRxPacket = st.timeFirstTxPacket) : denominator st = Double.real 0 := by
  obtain ⟨_, hf, _⟩ := h
  obtain ⟨h1, h2⟩ := GetSeconds_finite hf.1 hf.2
  unfold denominator
  rw [heq]
  exact Double.sub_self h1 h2

/-- Line 222 gives not-a-number exactly when no byte was received and the divisor is
a zero. -/
theorem throughput_eq_nan_iff {st : FlowStats} (h : st.inRange) :
    throughput st = Double.nan ↔ (st.rxBytes = 0 ∧ (denominator st).isZero = true) := by
  have hd := denominator_isNaN h
  unfold throughput
  rcases Nat.eq_zero_or_pos st.rxBytes with hb | hb
  · rw [numerator_of_zero hb, Double.div_zero_eq_nan_iff hd]
    simp [hb]
  · obtain ⟨w, hw, hw1⟩ := numerator_of_pos hb h.1
    have hw0 : w ≠ 0 := by linarith
    have := Double.div_real_isNaN hw0 hd
    rw [hw]
    constructor
    · intro hn; rw [hn] at this; simp [Double.isNaN] at this
    · intro hn; omega


/-! ## Exact cases -/

theorem Double.exact_zero : Double.exact 0 := by simp [Double.exact, Double.ofRat]

/-- Every natural number below `2 ^ 53` is a binary64 number. -/
theorem Double.exact_natCast (k : ℕ) (hk : k < 2 ^ 53) : Double.exact (k : ℚ) := by
  rcases Nat.eq_zero_or_pos k with h0 | hpos
  · subst h0; simpa using Double.exact_zero
  · have hk0 : k ≠ 0 := Nat.pos_iff_ne_zero.1 hpos
    have hlo : 2 ^ Nat.log 2 k ≤ k := Nat.pow_log_le_self 2 hk0
    have hhi : k < 2 ^ (Nat.log 2 k + 1) := Nat.lt_pow_succ_log_self (by norm_num) k
    have he : Nat.log 2 k < 53 := by
      by_contra hge
      have : 2 ^ 53 ≤ 2 ^ Nat.log 2 k := Nat.pow_le_pow_right (by norm_num) (by omega)
      omega
    set e := Nat.log 2 k with hedef
    have hq : (0 : ℚ) < (k : ℚ) := by exact_mod_cast hpos
    have hpw : (2 : ℚ) ^ ((e : ℤ) - 52) = ((2 : ℚ) ^ (52 - e))⁻¹ := by
      rw [← zpow_natCast, ← zpow_neg]
      congr 1
      omega
    have h2 : (2 : ℚ) ^ (52 - e) ≠ 0 := by positivity
    have hcert := Double.ofRat_eq_of_near (q := (k : ℚ)) (e : ℤ) ((k * 2 ^ (52 - e) : ℕ) : ℤ) hq
      (by omega)
      (by rw [zpow_natCast]; exact_mod_cast hlo)
      (by
        have : ((e : ℤ) + 1) = ((e + 1 : ℕ) : ℤ) := by push_cast; ring
        rw [this, zpow_natCast]; exact_mod_cast hhi)
      (by
        rw [hpw, div_inv_eq_mul]
        push_cast
        simp)
      (by
        rw [hpw]
        push_cast
        rw [mul_assoc, mul_inv_cancel₀ h2, mul_one]
        have : (k : ℚ) < (2 : ℚ) ^ (53 : ℕ) := by exact_mod_cast hk
        exact lt_trans this (by norm_num))
    unfold Double.exact
    rw [hcert, hpw]
    push_cast
    rw [mul_assoc, mul_inv_cancel₀ h2, mul_one]

theorem Double.exact_neg_of_pos {q : ℚ} (hq : 0 < q) (h : Double.exact q) : Double.exact (-q) := by
  unfold Double.exact at h ⊢
  rw [Double.ofRat_of_pos hq] at h
  split_ifs at h with hb
  have hv : Double.roundMagnitude q = q := by injection h
  have hz : ¬ Double.roundMagnitude q = 0 := by rw [hv]; exact ne_of_gt hq
  rw [Double.ofRat_of_neg (neg_neg_of_pos hq), neg_neg, if_neg hb, if_neg hz, hv]

theorem Double.mul_real_of_exact {a b : ℚ} (hb : 0 < b) (h : Double.exact (a * b)) :
    Double.mul (Double.real a) (Double.real b) = Double.real (a * b) := by
  have hb0 : b ≠ 0 := ne_of_gt hb
  have hbn : ¬ b < 0 := not_lt.2 (le_of_lt hb)
  by_cases ha : a = 0
  · subst ha
    simp [Double.mul, Double.isNaN, Double.isInf, Double.isZero, Double.mkZero, Double.signBit,
      hbn]
  · have hm : Double.mul (Double.real a) (Double.real b) = Double.ofRat (a * b) := by
      simp [Double.mul, Double.isNaN, Double.isInf, Double.isZero, Double.toRat, ha, hb0]
    rw [hm]; exact h

theorem Double.div_real_of_exact {a b : ℚ} (hb : 0 < b) (h : Double.exact (a / b)) :
    Double.div (Double.real a) (Double.real b) = Double.real (a / b) := by
  have hb0 : b ≠ 0 := ne_of_gt hb
  have hbn : ¬ b < 0 := not_lt.2 (le_of_lt hb)
  by_cases ha : a = 0
  · subst ha
    simp [Double.div, Double.isNaN, Double.isInf, Double.isZero, Double.mkZero, Double.signBit,
      hbn, hb0]
  · have hm : Double.div (Double.real a) (Double.real b) = Double.ofRat (a / b) := by
      simp [Double.div, Double.isNaN, Double.isInf, Double.isZero, Double.toRat, ha, hb0]
    rw [hm]; exact h

theorem Double.sub_real_of_exact {a b : ℚ} (h : Double.exact (a - b)) :
    Double.sub (Double.real a) (Double.real b) = Double.real (a - b) := by
  by_cases hd : a - b = 0
  · simp [Double.sub, Double.isNaN, Double.isInf, Double.toRat, hd]
  · have hm : Double.sub (Double.real a) (Double.real b) = Double.ofRat (a - b) := by
      simp [Double.sub, Double.isNaN, Double.isInf, Double.toRat, hd]
    rw [hm]; exact h

theorem GetSeconds_of_exact {t : Time} (h1 : Double.exact (t : ℚ))
    (h2 : Double.exact ((t : ℚ) / 1000000000)) :
    GetSeconds t = Double.real ((t : ℚ) / 1000000000) := by
  unfold GetSeconds Double.ofInt
  rw [h1]
  exact Double.div_real_of_exact (by norm_num) h2

theorem GetSeconds_zero : GetSeconds 0 = Double.real 0 := by
  have := GetSeconds_of_exact (t := 0) (by simpa using Double.exact_zero)
    (by simpa using Double.exact_zero)
  simpa using this

theorem GetSeconds_one_second : GetSeconds 1000000000 = Double.real 1 := by
  have h1 : Double.exact ((1000000000 : Int) : ℚ) := by
    simpa using Double.exact_natCast 1000000000 (by norm_num)
  have h2 : Double.exact (((1000000000 : Int) : ℚ) / 1000000000) := by
    have := Double.exact_natCast 1 (by norm_num)
    norm_num at this ⊢; exact this
  have := GetSeconds_of_exact h1 h2
  norm_num at this; exact this

theorem GetSeconds_two_seconds : GetSeconds 2000000000 = Double.real 2 := by
  have h1 : Double.exact ((2000000000 : Int) : ℚ) := by
    simpa using Double.exact_natCast 2000000000 (by norm_num)
  have h2 : Double.exact (((2000000000 : Int) : ℚ) / 1000000000) := by
    have := Double.exact_natCast 2 (by norm_num)
    norm_num at this ⊢; exact this
  have := GetSeconds_of_exact h1 h2
  norm_num at this; exact this

theorem numerator_of_320 {st : FlowStats} (h : st.rxBytes = 320) :
    numerator st = Double.real 2560 := by
  unfold numerator Double.ofNat
  rw [h]
  have h1 : Double.exact ((320 : ℕ) : ℚ) := Double.exact_natCast 320 (by norm_num)
  have h2 : Double.exact (((320 : ℕ) : ℚ) * 8) := by
    have := Double.exact_natCast 2560 (by norm_num)
    norm_num at this ⊢; exact this
  rw [h1, Double.mul_real_of_exact (by norm_num) h2]
  norm_num



theorem Double.div_real_real {a b : ℚ} (ha : a ≠ 0) (hb : b ≠ 0) :
    Double.div (Double.real a) (Double.real b) = Double.ofRat (a / b) := by
  simp [Double.div, Double.isNaN, Double.isInf, Double.isZero, Double.toRat, ha, hb]

theorem Double.sub_real_real {a b : ℚ} (h : a - b ≠ 0) :
    Double.sub (Double.real a) (Double.real b) = Double.ofRat (a - b) := by
  simp [Double.sub, Double.isNaN, Double.isInf, Double.toRat, h]

theorem flowRecord_throughput (nBgStations : Nat) (FindFlow : FlowId → FiveTuple)
    (flow : FlowId × FlowStats) :
    (flowRecord nBgStations FindFlow flow).throughput = throughput flow.2 := rfl

/-- Every entry of the statistics map has its record text in the document. -/
theorem record_emitted (showDouble : Double → String) (nBgStations : Nat)
    (FindFlow : FlowId → FiveTuple) (stats : FlowStatsContainer) (flow : FlowId × FlowStats)
    (h : flow ∈ stats.entries) :
    ∃ pre post, exportJson showDouble nBgStations FindFlow stats =
      pre ++ recordText showDouble (flowRecord nBgStations FindFlow flow) ++ post := by
  have hx : recordText showDouble (flowRecord nBgStations FindFlow flow) ∈
      stats.entries.map (fun f => recordText showDouble (flowRecord nBgStations FindFlow f)) :=
    List.mem_map.2 ⟨flow, h, rfl⟩
  obtain ⟨pre, post, hpp⟩ := intercalate_emits ",\n" _ _ hx
  refine ⟨"[\n" ++ pre, post ++ "\n]\n", ?_⟩
  simp only [exportJson]
  rw [exportLoop_eq_intercalate, hpp]
  simp only [String.append_assoc]

/-- The text of a record is the JSON object of its seven members. -/
theorem recordText_eq_jsonObject (showDouble : Double → String) (r : FlowRecord) :
    recordText showDouble r =
      jsonObject (recordMembers showDouble r.flowId r.flowLabel r.txPackets r.rxPackets
        r.delaySum r.jitterSum r.throughput) := by
  apply String.ext
  simp [recordText, jsonObject, recordMembers, String.intercalate, String.intercalate.go,
    String.data_append]

/-- Every entry of the statistics map has its record, a JSON object with the flow id,
the label of the destination port, the two packet counts, the two sums in seconds
and the throughput of line 222, written into the document. -/
theorem record_written (showDouble : Double → String) (nBgStations : Nat)
    (FindFlow : FlowId → FiveTuple) (stats : FlowStatsContainer) (id : FlowId) (st : FlowStats)
    (h : (id, st) ∈ stats.entries) :
    ∃ pre post, exportJson showDouble nBgStations FindFlow stats =
      pre ++ jsonObject (recordMembers showDouble id
        (flowLabel nBgStations (FindFlow id).destinationPort) st.txPackets st.rxPackets
        (GetSeconds st.delaySum) (GetSeconds st.jitterSum) (throughput st)) ++ post := by
  obtain ⟨pre, post, hpp⟩ := record_emitted showDouble nBgStations FindFlow stats (id, st) h
  refine ⟨pre, post, ?_⟩
  rw [hpp, recordText_eq_jsonObject]
  rfl

/-! ## Monotonicity of rounding -/

namespace Double

end Double

/-- The document of a statistics map with a single flow. -/
theorem exportJson_singleton (showDouble : Double → String) (nBgStations : Nat)
    (FindFlow : FlowId → FiveTuple) (id : FlowId) (st : FlowStats) :
    exportJson showDouble nBgStations FindFlow
        (FlowStatsContainer.mk [(id, st)] (List.pairwise_singleton _ _)) =
      "[\n" ++ jsonObject (recordMembers showDouble id
        (flowLabel nBgStations (FindFlow id).destinationPort) st.txPackets st.rxPackets
        (GetSeconds st.delaySum) (GetSeconds st.jitterSum) (throughput st)) ++ "\n]\n" := by
  simp only [exportJson, exportLoop]
  rw [recordText_eq_jsonObject]
  rfl

/-! ## The claims -/

/-- C1 (as stated, refuted): the value is computed in binary64 and is not the exact
rational quotient.  For 320 bytes, first transmit at 1 s and last receive at
1.001 s, line 222 gives `5497558138880605 / 2 ^ 31` (about 2560000.00000028), not
2560000; for first transmit at `2 ^ 25` s and last receive one nanosecond later the
two second-values are the same `double`, and line 222 gives positive infinity. -/
theorem throughput_is_rounded :
    ((1000000000 : Int) < 1001000000 ∧
      throughput ⟨1000000000, 1001000000, 1001000000, 1000000, 0, 320, 1, 1⟩ =
        Double.real (5497558138880605 / 2147483648) ∧
      throughput ⟨1000000000, 1001000000, 1001000000, 1000000, 0, 320, 1, 1⟩ ≠
        Double.real (((320 : Nat) : ℚ) * 8 /
          (((1001000000 : Int) : ℚ) / 1000000000 - ((1000000000 : Int) : ℚ) / 1000000000))) ∧
    ((33554432000000000 : Int) < 33554432000000001 ∧
      throughput ⟨33554432000000000, 33554432000000001, 33554432000000001, 1, 0, 320, 1, 1⟩ =
        Double.posInf) := by
  have hnum : ∀ st : FlowStats, st.rxBytes = 320 → numerator st = Double.real 2560 :=
    fun st h => numerator_of_320 h
  constructor
  · have hL : GetSeconds 1001000000 = Double.real (2254051613498933 / 2251799813685248) := by
      unfold GetSeconds Double.ofInt
      have h1 : Double.exact ((1001000000 : Int) : ℚ) := by
        simpa using Double.exact_natCast 1001000000 (by norm_num)
      rw [h1, Double.div_real_real (by norm_num) (by norm_num)]
      have := Double.ofRat_eq_of_near (q := ((1001000000 : Int) : ℚ) / 1000000000) 0
        4508103226997866 (by norm_num) (by norm_num) (by norm_num) (by norm_num)
        (by rw [abs_lt]; constructor <;> norm_num) (by norm_num)
      rw [this]; norm_num
    have hD : denominator ⟨1000000000, 1001000000, 1001000000, 1000000, 0, 320, 1, 1⟩ =
        Double.real (2251799813685 / 2251799813685248) := by
      unfold denominator
      rw [hL, GetSeconds_one_second, Double.sub_real_real (by norm_num)]
      have := Double.ofRat_eq_of_near
        (q := (2254051613498933 : ℚ) / 2251799813685248 - 1) (-10)
        4611686018426880 (by norm_num) (by norm_num) (by norm_num) (by norm_num)
        (by rw [abs_lt]; constructor <;> norm_num) (by norm_num)
      rw [this]; norm_num
    have hT : throughput ⟨1000000000, 1001000000, 1001000000, 1000000, 0, 320, 1, 1⟩ =
        Double.real (5497558138880605 / 2147483648) := by
      unfold throughput
      rw [hD, hnum _ rfl, Double.div_real_real (by norm_num) (by norm_num)]
      have := Double.ofRat_eq_of_near
        (q := (2560 : ℚ) / (2251799813685 / 2251799813685248)) 21
        5497558138880605 (by norm_num) (by norm_num) (by norm_num) (by norm_num)
        (by rw [abs_lt]; constructor <;> norm_num) (by norm_num)
      rw [this]; norm_num
    refine ⟨by decide, hT, ?_⟩
    rw [hT]
    intro h
    injection h with h
    norm_num at h
  · have hF : GetSeconds 33554432000000000 = Double.real 33554432 := by
      have h1 : Double.exact ((33554432000000000 : Int) : ℚ) := by
        have := Double.ofRat_eq_of_near (q := ((33554432000000000 : Int) : ℚ)) 54
          8388608000000000 (by norm_num) (by norm_num) (by norm_num) (by norm_num)
          (by rw [abs_lt]; constructor <;> norm_num) (by norm_num)
        unfold Double.exact
        rw [this]; norm_num
      have h2 : Double.exact (((33554432000000000 : Int) : ℚ) / 1000000000) := by
        have := Double.exact_natCast 33554432 (by norm_num)
        norm_num at this ⊢; exact this
      have := GetSeconds_of_exact h1 h2
      norm_num at this; exact this
    have hL : GetSeconds 33554432000000001 = Double.real 33554432 := by
      unfold GetSeconds Double.ofInt
      have h1 : Double.ofRat ((33554432000000001 : Int) : ℚ) =
          Double.real 33554432000000000 := by
        have := Double.ofRat_eq_of_near (q := ((33554432000000001 : Int) : ℚ)) 54
          8388608000000000 (by norm_num) (by norm_num) (by norm_num) (by norm_num)
          (by rw [abs_lt]; constructor <;> norm_num) (by norm_num)
        rw [this]; norm_num
      have h2 : Double.exact ((33554432000000000 : ℚ) / 1000000000) := by
        have := Double.exact_natCast 33554432 (by norm_num)
        norm_num at this ⊢; exact this
      rw [h1, Double.div_real_of_exact (by norm_num) h2]
      norm_num
    refine ⟨by decide, ?_⟩
    unfold throughput denominator
    rw [hnum _ rfl, hL, hF]
    norm_num [Double.sub, Double.div, Double.isNaN, Double.isInf, Double.isZero, Double.toRat,
      Double.mkInf, Double.signBit]


/-- C1 (amended): for a flow of the statistics map whose last-receive time is later than
its first-transmit time, the throughput written into its record is the binary64
value of `rxBytes * 8.0 / (timeLastRxPacket.GetSeconds() - timeFirstTxPacket.GetSeconds())`:
the interval runs from the first transmit to the last receive, the first-receive
time has no influence, and every operation is rounded.  It equals the exact
rational `rxBytes * 8 / (lastRx - firstTx)` in seconds whenever the byte count, the
two times, their second-values, the difference, the product and the quotient are
binary64 numbers. -/
theorem throughput_first_tx_to_last_rx (showDouble : Double → String) (nBgStations : Nat)
    (FindFlow : FlowId → FiveTuple) (stats : FlowStatsContainer) (id : FlowId) (st : FlowStats)
    (hmem : (id, st) ∈ stats.entries) (h : st.timeFirstTxPacket < st.timeLastRxPacket) :
    (∃ pre post, exportJson showDouble nBgStations FindFlow stats =
      pre ++ jsonObject
        [ ("flowId", Nat.repr id),
          ("flowLabel", "\"" ++ flowLabel nBgStations (FindFlow id).destinationPort ++ "\""),
          ("txPackets", Nat.repr st.txPackets),
          ("rxPackets", Nat.repr st.rxPackets),
          ("delaySum", showDouble (GetSeconds st.delaySum)),
          ("jitterSum", showDouble (GetSeconds st.jitterSum)),
          ("throughput", showDouble
            (Double.div (Double.mul (Double.ofNat st.rxBytes) (Double.real 8))
              (Double.sub (GetSeconds st.timeLastRxPacket)
                (GetSeconds st.timeFirstTxPacket)))) ] ++ post)
    ∧ (∀ t : Time, throughput { st with timeFirstRxPacket := t } = throughput st)
    ∧ (Double.exact (st.rxBytes : ℚ) → Double.exact ((st.rxBytes : ℚ) * 8) →
        Double.exact (st.timeLastRxPacket : ℚ) →
        Double.exact ((st.timeLastRxPacket : ℚ) / 1000000000) →
        Double.exact (st.timeFirstTxPacket : ℚ) →
        Double.exact ((st.timeFirstTxPacket : ℚ) / 1000000000) →
        Double.exact
          ((st.timeLastRxPacket : ℚ) / 1000000000 - (st.timeFirstTxPacket : ℚ) / 1000000000) →
        Double.exact ((st.rxBytes : ℚ) * 8 /
          ((st.timeLastRxPacket : ℚ) / 1000000000 - (st.timeFirstTxPacket : ℚ) / 1000000000)) →
        throughput st = Double.real ((st.rxBytes : ℚ) * 8 /
          ((st.timeLastRxPacket : ℚ) / 1000000000 -
            (st.timeFirstTxPacket : ℚ) / 1000000000))) := by
  refine ⟨record_written showDouble nBgStations FindFlow stats id st hmem, fun t => rfl, ?_⟩
  intro hb hb8 hl hls hf hfs hd hq
  have hpos : (0 : ℚ) <
      (st.timeLastRxPacket : ℚ) / 1000000000 - (st.timeFirstTxPacket : ℚ) / 1000000000 := by
    have : (st.timeFirstTxPacket : ℚ) < (st.timeLastRxPacket : ℚ) := by exact_mod_cast h
    linarith
  unfold throughput numerator denominator Double.ofNat
  rw [hb, Double.mul_real_of_exact (by norm_num) hb8, GetSeconds_of_exact hl hls,
    GetSeconds_of_exact hf hfs, Double.sub_real_of_exact hd, Double.div_real_of_exact hpos hq]

theorem throughput_first_tx_to_last_rx_witness :
    (1000000000 : Int) < 2000000000 ∧
    throughput ⟨1000000000, 2000000000, 2000000000, 1000000000, 0, 320, 1, 1⟩ =
      Double.real (((320 : Nat) : ℚ) * 8 /
        (((2000000000 : Int) : ℚ) / 1000000000 - ((1000000000 : Int) : ℚ) / 1000000000)) :=
  ⟨by decide,
    (throughput_first_tx_to_last_rx (fun _ => "0") 5 voipClassifier
      (FlowStatsContainer.mk [(1, ⟨1000000000, 2000000000, 2000000000, 1000000000, 0, 320, 1, 1⟩)]
        (List.pairwise_singleton _ _))
      1 ⟨1000000000, 2000000000, 2000000000, 1000000000, 0, 320, 1, 1⟩
      (List.mem_singleton.2 rfl) (by decide)).2.2
      (Double.exact_natCast 320 (by norm_num))
      (by have := Double.exact_natCast 2560 (by norm_num); norm_num at this ⊢; exact this)
      (by have := Double.exact_natCast 2000000000 (by norm_num); norm_num at this ⊢; exact this)
      (by have := Double.exact_natCast 2 (by norm_num); norm_num at this ⊢; exact this)
      (by have := Double.exact_natCast 1000000000 (by norm_num); norm_num at this ⊢; exact this)
      (by have := Double.exact_natCast 1 (by norm_num); norm_num at this ⊢; exact this)
      (by have := Double.exact_natCast 1 (by norm_num); norm_num at this ⊢; exact this)
      (by have := Double.exact_natCast 2560 (by norm_num); norm_num at this ⊢; exact this)⟩


theorem denominator_minus_one_second {st : FlowStats}
    (hl : GetSeconds st.timeLastRxPacket = Double.real 0 ∧
          GetSeconds st.timeFirstTxPacket = Double.real 1 ∨
        GetSeconds st.timeLastRxPacket = Double.real 1 ∧
          GetSeconds st.timeFirstTxPacket = Double.real 2) :
    denominator st = Double.real (-1) := by
  have h1 : Double.exact (-1) :=
    Double.exact_neg_of_pos one_pos
      (by have := Double.exact_natCast 1 (by norm_num); norm_num at this ⊢; exact this)
  unfold denominator
  rcases hl with ⟨ha, hb⟩ | ⟨ha, hb⟩
  · rw [ha, hb, Double.sub_real_real (by norm_num)]
    have : (0 : ℚ) - 1 = -1 := by norm_num
    rw [this]; exact h1
  · rw [ha, hb, Double.sub_real_real (by norm_num)]
    have : (1 : ℚ) - 2 = -1 := by norm_num
    rw [this]; exact h1

/-- C3 (as stated, refuted): a flow with exactly one received packet of 320 bytes, first
transmitted at 1 s and received at 2 s, gets the throughput 2560, not not-a-number,
and that number is what its record in the document carries; a flow that transmitted
50 packets from 1 s on and received none gets negative zero. -/
theorem single_packet_throughput_finite :
    ((⟨1000000000, 2000000000, 2000000000, 1000000000, 0, 320, 1, 1⟩ : FlowStats).rxPackets < 2 ∧
      (1000000000 : Int) < 2000000000 ∧
      throughput ⟨1000000000, 2000000000, 2000000000, 1000000000, 0, 320, 1, 1⟩ =
        Double.real 2560 ∧
      throughput ⟨1000000000, 2000000000, 2000000000, 1000000000, 0, 320, 1, 1⟩ ≠ Double.nan ∧
      ∀ showDouble : Double → String,
        exportJson showDouble 5 voipClassifier
          (FlowStatsContainer.mk
            [(1, ⟨1000000000, 2000000000, 2000000000, 1000000000, 0, 320, 1, 1⟩)]
            (List.pairwise_singleton _ _)) =
        "[\n" ++ jsonObject
          [ ("flowId", "1"), ("flowLabel", "\"VoIP\""), ("txPackets", "1"), ("rxPackets", "1"),
            ("delaySum", showDouble (Double.real 1)), ("jitterSum", showDouble (Double.real 0)),
            ("throughput", showDouble (Double.real 2560)) ] ++ "\n]\n") ∧
    ((⟨1000000000, 0, 0, 0, 0, 0, 50, 0⟩ : FlowStats).rxPackets < 2 ∧
      throughput ⟨1000000000, 0, 0, 0, 0, 0, 50, 0⟩ = Double.negZero ∧
      throughput ⟨1000000000, 0, 0, 0, 0, 0, 50, 0⟩ ≠ Double.nan) := by
  have h1 : throughput ⟨1000000000, 2000000000, 2000000000, 1000000000, 0, 320, 1, 1⟩ =
      Double.real 2560 := by
    unfold throughput denominator
    rw [numerator_of_320 rfl, GetSeconds_two_seconds, GetSeconds_one_second,
      Double.sub_real_of_exact
        (by have := Double.exact_natCast 1 (by norm_num); norm_num at this ⊢; exact this),
      Double.div_real_real (by norm_num) (by norm_num)]
    have := Double.exact_natCast 2560 (by norm_num)
    norm_num [Double.exact] at this ⊢; exact this
  have h2 : throughput ⟨1000000000, 0, 0, 0, 0, 0, 50, 0⟩ = Double.negZero := by
    unfold throughput
    rw [numerator_of_zero rfl,
      denominator_minus_one_second (Or.inl ⟨GetSeconds_zero, GetSeconds_one_second⟩)]
    norm_num [Double.div, Double.isNaN, Double.isInf, Double.isZero, Double.mkZero,
      Double.signBit]
  refine ⟨⟨by decide, by decide, h1, ?_, ?_⟩, ⟨by decide, h2, ?_⟩⟩
  · rw [h1]; simp
  · intro showDouble
    rw [exportJson_singleton, h1]
    have hd : GetSeconds
        (⟨1000000000, 2000000000, 2000000000, 1000000000, 0, 320, 1, 1⟩ : FlowStats).delaySum =
        Double.real 1 := GetSeconds_one_second
    have hj : GetSeconds
        (⟨1000000000, 2000000000, 2000000000, 1000000000, 0, 320, 1, 1⟩ : FlowStats).jitterSum =
        Double.real 0 := GetSeconds_zero
    rw [hd, hj]
    rfl
  · rw [h2]; simp

/-- C3 (amended): for a flow of the statistics map with fewer than two received packets
(fields within their machine ranges) the record is still written into the document,
carrying the unguarded binary64 quotient of line 222 like that of any other flow.
That quotient is not-a-number exactly when no byte was received and the divisor is
a zero, as it is when the last-receive time equals the first-transmit time; it is
never not-a-number when bytes were received, so a flow with exactly one received,
non-empty packet gets a number. -/
theorem degenerate_flow_record (showDouble : Double → String) (nBgStations : Nat)
    (FindFlow : FlowId → FiveTuple) (stats : FlowStatsContainer) (id : FlowId) (st : FlowStats)
    (hmem : (id, st) ∈ stats.entries) (hrange : st.inRange) (_hrx : st.rxPackets < 2) :
    (∃ pre post, exportJson showDouble nBgStations FindFlow stats =
      pre ++ jsonObject
        [ ("flowId", Nat.repr id),
          ("flowLabel", "\"" ++ flowLabel nBgStations (FindFlow id).destinationPort ++ "\""),
          ("txPackets", Nat.repr st.txPackets),
          ("rxPackets", Nat.repr st.rxPackets),
          ("delaySum", showDouble (GetSeconds st.delaySum)),
          ("jitterSum", showDouble (GetSeconds st.jitterSum)),
          ("throughput", showDouble (throughput st)) ] ++ post)
    ∧ (throughput st = Double.nan ↔ (st.rxBytes = 0 ∧ (denominator st).isZero = true))
    ∧ (st.rxBytes = 0 → st.timeLastRxPacket = st.timeFirstTxPacket →
        throughput st = Double.nan)
    ∧ (0 < st.rxBytes → throughput st ≠ Double.nan) := by
  have hiff := throughput_eq_nan_iff hrange
  refine ⟨record_written showDouble nBgStations FindFlow stats id st hmem, hiff, ?_, ?_⟩
  · intro hb heq
    rw [hiff, denominator_of_eq hrange heq]
    exact ⟨hb, by simp [Double.isZero]⟩
  · intro hb hn
    have := (hiff.1 hn).1
    omega

theorem degenerate_flow_record_witness :
    (⟨1000000000, 2000000000, 2000000000, 1000000000, 0, 320, 1, 1⟩ : FlowStats).inRange ∧
    (⟨1000000000, 2000000000, 2000000000, 1000000000, 0, 320, 1, 1⟩ : FlowStats).rxPackets < 2 ∧
    (0 < (⟨1000000000, 2000000000, 2000000000, 1000000000, 0, 320, 1, 1⟩ : FlowStats).rxBytes →
      throughput ⟨1000000000, 2000000000, 2000000000, 1000000000, 0, 320, 1, 1⟩ ≠ Double.nan) :=
  ⟨by decide, by decide,
    (degenerate_flow_record (fun _ => "0") 5 voipClassifier
      (FlowStatsContainer.mk
        [(1, ⟨1000000000, 2000000000, 2000000000, 1000000000, 0, 320, 1, 1⟩)]
        (List.pairwise_singleton _ _))
      1 ⟨1000000000, 2000000000, 2000000000, 1000000000, 0, 320, 1, 1⟩
      (List.mem_singleton.2 rfl) (by decide) (by decide)).2.2.2⟩

/-- C8: a flow of the statistics map that transmitted and received nothing (no packets,
no bytes, first-transmit and last-receive time both zero) has its record written
into the document, and that record reads `txPackets` 0, `rxPackets` 0 and, as
`throughput`, the stream's rendering of not-a-number (`0 * 8.0 / (0.0 - 0.0)`). -/
theorem empty_flow_record (showDouble : Double → String) (nBgStations : Nat)
    (FindFlow : FlowId → FiveTuple) (stats : FlowStatsContainer) (id : FlowId) (st : FlowStats)
    (hmem : (id, st) ∈ stats.entries) (htx : st.txPackets = 0) (hrx : st.rxPackets = 0)
    (hbytes : st.rxBytes = 0) (hfirst : st.timeFirstTxPacket = 0)
    (hlast : st.timeLastRxPacket = 0) :
    throughput st = Double.nan
    ∧ ∃ pre post, exportJson showDouble nBgStations FindFlow stats =
      pre ++ jsonObject
        [ ("flowId", Nat.repr id),
          ("flowLabel", "\"" ++ flowLabel nBgStations (FindFlow id).destinationPort ++ "\""),
          ("txPackets", "0"),
          ("rxPackets", "0"),
          ("delaySum", showDouble (GetSeconds st.delaySum)),
          ("jitterSum", showDouble (GetSeconds st.jitterSum)),
          ("throughput", showDouble Double.nan) ] ++ post := by
  have htp : throughput st = Double.nan := by
    unfold throughput denominator
    rw [numerator_of_zero hbytes, hfirst, hlast, GetSeconds_zero]
    simp [Double.sub, Double.div, Double.isNaN, Double.isInf, Double.isZero, Double.toRat]
  refine ⟨htp, ?_⟩
  obtain ⟨pre, post, h⟩ := record_written showDouble nBgStations FindFlow stats id st hmem
  refine ⟨pre, post, ?_⟩
  rw [h, htp, htx, hrx]
  rfl

theorem empty_flow_record_witness :
    throughput ⟨0, 0, 0, 0, 0, 0, 0, 0⟩ = Double.nan
    ∧ ∃ pre post, exportJson (fun _ => "nan") 5 voipClassifier
        (FlowStatsContainer.mk [(1, ⟨0, 0, 0, 0, 0, 0, 0, 0⟩)] (List.pairwise_singleton _ _)) =
      pre ++ jsonObject
        [ ("flowId", Nat.repr 1),
          ("flowLabel", "\"" ++ flowLabel 5 (voipClassifier 1).destinationPort ++ "\""),
          ("txPackets", "0"),
          ("rxPackets", "0"),
          ("delaySum", (fun _ => "nan") (GetSeconds (0 : Time))),
          ("jitterSum", (fun _ => "nan") (GetSeconds (0 : Time))),
          ("throughput", (fun _ => "nan") Double.nan) ] ++ post :=
  empty_flow_record (fun _ => "nan") 5 voipClassifier
    (FlowStatsContainer.mk [(1, ⟨0, 0, 0, 0, 0, 0, 0, 0⟩)] (List.pairwise_singleton _ _))
    1 ⟨0, 0, 0, 0, 0, 0, 0, 0⟩ (List.mem_singleton.2 rfl) rfl rfl rfl rfl rfl



/-- C4: the exported document is the opening bracket, the record texts of the flows of
the statistics map joined by one comma each (none after the last), and the closing
bracket; there is exactly one record per flow, in the iteration order of the map,
which is ascending flow id; and the array has no record exactly when the map has no
flow. -/
theorem export_document_shape (showDouble : Double → String) (nBgStations : Nat)
    (FindFlow : FlowId → FiveTuple) (stats : FlowStatsContainer) :
    exportJson showDouble nBgStations FindFlow stats =
      "[\n" ++ String.intercalate ",\n"
        ((exportRecords nBgStations FindFlow stats).map (recordText showDouble)) ++ "\n]\n"
    ∧ (exportRecords nBgStations FindFlow stats).length = stats.entries.length
    ∧ (exportRecords nBgStations FindFlow stats).map FlowRecord.flowId =
        stats.entries.map Prod.fst
    ∧ ((exportRecords nBgStations FindFlow stats).map FlowRecord.flowId).Pairwise (· < ·)
    ∧ (exportRecords nBgStations FindFlow stats = [] ↔ stats.entries = [])
    ∧ (exportJson showDouble nBgStations FindFlow stats = "[\n\n]\n" ↔ stats.entries = []) := by
  have hdoc : exportJson showDouble nBgStations FindFlow stats =
      "[\n" ++ String.intercalate ",\n"
        ((exportRecords nBgStations FindFlow stats).map (recordText showDouble)) ++ "\n]\n" := by
    simp only [exportJson, exportRecords, List.map_map]
    rw [exportLoop_eq_intercalate]
    rfl
  have hids : (exportRecords nBgStations FindFlow stats).map FlowRecord.flowId =
      stats.entries.map Prod.fst := by
    simp only [exportRecords, List.map_map]
    apply List.map_congr_left
    intro f _
    rfl
  refine ⟨hdoc, by simp [exportRecords], hids, ?_, by simp [exportRecords], ?_⟩
  · rw [hids, List.pairwise_map]
    exact stats.ascending
  · constructor
    · intro h
      rw [hdoc] at h
      cases hl : stats.entries with
      | nil => rfl
      | cons f fs =>
        exfalso
        have hlen := congrArg String.length h
        simp only [exportRecords, hl, List.map, String.intercalate, String.length_append] at hlen
        have h1 := intercalate_go_length ",\n"
          (List.map (recordText showDouble) (List.map (flowRecord nBgStations FindFlow) fs))
          (recordText showDouble (flowRecord nBgStations FindFlow f))
        have h2 := recordText_length_pos showDouble (flowRecord nBgStations FindFlow f)
        have h3 : "[\n".length = 2 := by decide
        have h4 : "\n]\n".length = 3 := by decide
        have h5 : "[\n\n]\n".length = 5 := by decide
        omega
    · intro h
      rw [hdoc]
      simp only [exportRecords, h, List.map, String.intercalate]
      decide


/-- C5 (as stated, refuted): with five background stations a flow towards port 9005,
and likewise a flow towards port 53, is labelled `Unknown`, which is none of `VoIP`,
`Video`, `BestEffort` or `Background<N>`. -/
theorem unknown_label_emitted :
    flowLabel 5 9005 = "Unknown" ∧ flowLabel 5 53 = "Unknown" ∧
    ¬ (flowLabel 5 9005 = "VoIP" ∨ flowLabel 5 9005 = "Video" ∨ flowLabel 5 9005 = "BestEffort"
        ∨ ∃ N : Nat, 0 < N ∧ flowLabel 5 9005 = "Background" ++ Nat.repr N) := by
  have h : flowLabel 5 9005 = "Unknown" := by decide
  refine ⟨h, by decide, ?_⟩
  rw [h]
  rintro (h1 | h1 | h1 | ⟨N, _, h1⟩)
  · exact absurd h1 (by decide)
  · exact absurd h1 (by decide)
  · exact absurd h1 (by decide)
  · exact background_ne_Unknown _ h1.symm

/-- C5 (amended): for every destination port and every `nBgStations` the label is one of
`VoIP`, `Video`, `BestEffort`, `Background<N>` for a positive `N`, or `Unknown`; and it
is `Unknown` exactly when the port is none of 8000, 8001, 8002 and does not lie in
the range from 9000 up to (excluding) the 32-bit sum `9000 + nBgStations`. -/
theorem flowLabel_values (nBgStations destinationPort : Nat) :
    (flowLabel nBgStations destinationPort = "VoIP"
      ∨ flowLabel nBgStations destinationPort = "Video"
      ∨ flowLabel nBgStations destinationPort = "BestEffort"
      ∨ (∃ N : Nat, 0 < N ∧ flowLabel nBgStations destinationPort = "Background" ++ Nat.repr N)
      ∨ flowLabel nBgStations destinationPort = "Unknown")
    ∧ (flowLabel nBgStations destinationPort = "Unknown" ↔
        (destinationPort ≠ 8000 ∧ destinationPort ≠ 8001 ∧ destinationPort ≠ 8002 ∧
          ¬ (9000 ≤ destinationPort ∧ destinationPort < (9000 + nBgStations) % 2 ^ 32))) := by
  unfold flowLabel
  by_cases h0 : destinationPort = 8000
  · simp [h0]
  by_cases h1 : destinationPort = 8001
  · simp [h1]
  by_cases h2 : destinationPort = 8002
  · simp [h2]
  by_cases h3 : destinationPort ≥ 9000 ∧ destinationPort < (9000 + nBgStations) % 2 ^ 32
  · rw [if_neg h0, if_neg h1, if_neg h2, if_pos h3]
    refine ⟨Or.inr (Or.inr (Or.inr (Or.inl ⟨destinationPort - 9000 + 1, by omega, rfl⟩))), ?_⟩
    constructor
    · intro h; exact absurd h (background_ne_Unknown _)
    · intro h; exact absurd h3 h.2.2.2
  · rw [if_neg h0, if_neg h1, if_neg h2, if_neg h3]
    exact ⟨Or.inr (Or.inr (Or.inr (Or.inr rfl))),
      fun _ => ⟨h0, h1, h2, h3⟩, fun _ => rfl⟩


/-! ## The run of `main` -/

theorem installApplications_no_configSet (o : Options) :
    (installApplications o).filter Effect.isConfigSet = [] := by
  rw [List.filter_eq_nil_iff]
  intro e he
  simp only [installApplications, List.mem_append] at he
  rcases he with he | he
  · simp only [List.mem_cons, List.mem_singleton, List.not_mem_nil, or_false] at he
    rcases he with rfl | rfl | rfl | rfl | rfl | rfl <;> simp [Effect.isConfigSet]
  · split at he
    · simp only [List.mem_flatten, List.mem_map] at he
      obtain ⟨l, ⟨i, _, rfl⟩, hl⟩ := he
      simp only [bgApplication, List.mem_cons, List.mem_singleton, List.not_mem_nil,
        or_false] at hl
      rcases hl with rfl | rfl <;> simp [Effect.isConfigSet]
    · simp at he

theorem edcaConfig_all_configSet (o : Options) :
    (edcaConfig o).filter Effect.isConfigSet = edcaConfig o := by
  rw [List.filter_eq_self]
  intro e he
  unfold edcaConfig at he
  split at he
  · simp only [List.mem_cons, List.mem_singleton, List.not_mem_nil, or_false] at he
    rcases he with rfl | rfl | rfl | rfl | rfl | rfl | rfl | rfl | rfl | rfl | rfl | rfl <;> rfl
  · simp at he

/-- The attribute assignments in a run of `main` are those of the EDCA block. -/
theorem main_configSets (showDouble : Double → String) (o : Options)
    (stats : FlowStatsContainer) (FindFlow : FlowId → FiveTuple) :
    (main showDouble o stats FindFlow).1.filter Effect.isConfigSet = edcaConfig o := by
  simp only [main, List.filter_append, installApplications_no_configSet,
    edcaConfig_all_configSet]
  by_cases hb : o.enableBackground <;> simp [hb, Effect.isConfigSet, List.filter]

theorem assigned_filter (path : String) (trace : List Effect) :
    assigned path trace = assigned path (trace.filter Effect.isConfigSet) := by
  induction trace with
  | nil => rfl
  | cons e es ih =>
    cases e <;> simp [assigned, List.filter, Effect.isConfigSet, ih]

theorem main_simulatorRun (showDouble : Double → String) (o : Options)
    (stats : FlowStatsContainer) (FindFlow : FlowId → FiveTuple) :
    Effect.simulatorRun ∈ (main showDouble o stats FindFlow).1 := by
  simp [main]

theorem main_fileOutput (showDouble : Double → String) (o : Options)
    (stats : FlowStatsContainer) (FindFlow : FlowId → FiveTuple) :
    Effect.fileOutput o.output (exportJson showDouble o.nBgStations FindFlow stats) ∈
      (main showDouble o stats FindFlow).1 := by
  simp [main]


theorem edcaConfig_enabled (o : Options) (h : o.enableEdca = true) :
    edcaConfig o =
      [ Effect.configSet (edcaPath "VO" "MinCw") (AttributeValue.UintegerValue o.voMinCw),
        Effect.configSet (edcaPath "VO" "MaxCw") (AttributeValue.UintegerValue o.voMaxCw),
        Effect.configSet (edcaPath "VO" "Aifsn") (AttributeValue.UintegerValue o.voAifsn),
        Effect.configSet (edcaPath "VO" "TxopLimit")
          (AttributeValue.TimeValue ((o.voTxop : Int) * 1000)),
        Effect.configSet (edcaPath "VI" "MinCw") (AttributeValue.UintegerValue o.viMinCw),
        Effect.configSet (edcaPath "VI" "MaxCw") (AttributeValue.UintegerValue o.viMaxCw),
        Effect.configSet (edcaPath "VI" "Aifsn") (AttributeValue.UintegerValue o.viAifsn),
        Effect.configSet (edcaPath "VI" "TxopLimit")
          (AttributeValue.TimeValue ((o.viTxop : Int) * 1000)),
        Effect.configSet (edcaPath "BE" "MinCw") (AttributeValue.UintegerValue o.beMinCw),
        Effect.configSet (edcaPath "BE" "MaxCw") (AttributeValue.UintegerValue o.beMaxCw),
        Effect.configSet (edcaPath "BE" "Aifsn") (AttributeValue.UintegerValue o.beAifsn),
        Effect.configSet (edcaPath "BE" "TxopLimit")
          (AttributeValue.TimeValue ((o.beTxop : Int) * 1000)) ] := by
  have p1 : edcaPath "VO" "MinCw" = "/NodeList/*/DeviceList/*/$ns3::WifiNetDevice/Mac/VO_EdcaTxopN/MinCw" := by decide
  have p2 : edcaPath "VO" "MaxCw" = "/NodeList/*/DeviceList/*/$ns3::WifiNetDevice/Mac/VO_EdcaTxopN/MaxCw" := by decide
  have p3 : edcaPath "VO" "Aifsn" = "/NodeList/*/DeviceList/*/$ns3::WifiNetDevice/Mac/VO_EdcaTxopN/Aifsn" := by decide
  have p4 : edcaPath "VO" "TxopLimit" = "/NodeList/*/DeviceList/*/$ns3::WifiNetDevice/Mac/VO_EdcaTxopN/TxopLimit" := by decide
  have p5 : edcaPath "VI" "MinCw" = "/NodeList/*/DeviceList/*/$ns3::WifiNetDevice/Mac/VI_EdcaTxopN/MinCw" := by decide
  have p6 : edcaPath "VI" "MaxCw" = "/NodeList/*/DeviceList/*/$ns3::WifiNetDevice/Mac/VI_EdcaTxopN/MaxCw" := by decide
  have p7 : edcaPath "VI" "Aifsn" = "/NodeList/*/DeviceList/*/$ns3::WifiNetDevice/Mac/VI_EdcaTxopN/Aifsn" := by decide
  have p8 : edcaPath "VI" "TxopLimit" = "/NodeList/*/DeviceList/*/$ns3::WifiNetDevice/Mac/VI_EdcaTxopN/TxopLimit" := by decide
  have p9 : edcaPath "BE" "MinCw" = "/NodeList/*/DeviceList/*/$ns3::WifiNetDevice/Mac/BE_EdcaTxopN/MinCw" := by decide
  have p10 : edcaPath "BE" "MaxCw" = "/NodeList/*/DeviceList/*/$ns3::WifiNetDevice/Mac/BE_EdcaTxopN/MaxCw" := by decide
  have p11 : edcaPath "BE" "Aifsn" = "/NodeList/*/DeviceList/*/$ns3::WifiNetDevice/Mac/BE_EdcaTxopN/Aifsn" := by decide
  have p12 : edcaPath "BE" "TxopLimit" = "/NodeList/*/DeviceList/*/$ns3::WifiNetDevice/Mac/BE_EdcaTxopN/TxopLimit" := by decide
  rw [p1, p2, p3, p4, p5, p6, p7, p8, p9, p10, p11, p12]
  simp only [edcaConfig, h, if_true, MicroSeconds]

theorem appliedProfile_edcaConfig (o : Options) (h : o.enableEdca = true) :
    appliedProfile (edcaConfig o) "VO" =
        some ⟨o.voMinCw, o.voMaxCw, o.voAifsn, (o.voTxop : Int) * 1000⟩
    ∧ appliedProfile (edcaConfig o) "VI" =
        some ⟨o.viMinCw, o.viMaxCw, o.viAifsn, (o.viTxop : Int) * 1000⟩
    ∧ appliedProfile (edcaConfig o) "BE" =
        some ⟨o.beMinCw, o.beMaxCw, o.beAifsn, (o.beTxop : Int) * 1000⟩ := by
  have p1 : edcaPath "VO" "MinCw" = "/NodeList/*/DeviceList/*/$ns3::WifiNetDevice/Mac/VO_EdcaTxopN/MinCw" := by decide
  have p2 : edcaPath "VO" "MaxCw" = "/NodeList/*/DeviceList/*/$ns3::WifiNetDevice/Mac/VO_EdcaTxopN/MaxCw" := by decide
  have p3 : edcaPath "VO" "Aifsn" = "/NodeList/*/DeviceList/*/$ns3::WifiNetDevice/Mac/VO_EdcaTxopN/Aifsn" := by decide
  have p4 : edcaPath "VO" "TxopLimit" = "/NodeList/*/DeviceList/*/$ns3::WifiNetDevice/Mac/VO_EdcaTxopN/TxopLimit" := by decide
  have p5 : edcaPath "VI" "MinCw" = "/NodeList/*/DeviceList/*/$ns3::WifiNetDevice/Mac/VI_EdcaTxopN/MinCw" := by decide
  have p6 : edcaPath "VI" "MaxCw" = "/NodeList/*/DeviceList/*/$ns3::WifiNetDevice/Mac/VI_EdcaTxopN/MaxCw" := by decide
  have p7 : edcaPath "VI" "Aifsn" = "/NodeList/*/DeviceList/*/$ns3::WifiNetDevice/Mac/VI_EdcaTxopN/Aifsn" := by decide
  have p8 : edcaPath "VI" "TxopLimit" = "/NodeList/*/DeviceList/*/$ns3::WifiNetDevice/Mac/VI_EdcaTxopN/TxopLimit" := by decide
  have p9 : edcaPath "BE" "MinCw" = "/NodeList/*/DeviceList/*/$ns3::WifiNetDevice/Mac/BE_EdcaTxopN/MinCw" := by decide
  have p10 : edcaPath "BE" "MaxCw" = "/NodeList/*/DeviceList/*/$ns3::WifiNetDevice/Mac/BE_EdcaTxopN/MaxCw" := by decide
  have p11 : edcaPath "BE" "Aifsn" = "/NodeList/*/DeviceList/*/$ns3::WifiNetDevice/Mac/BE_EdcaTxopN/Aifsn" := by decide
  have p12 : edcaPath "BE" "TxopLimit" = "/NodeList/*/DeviceList/*/$ns3::WifiNetDevice/Mac/BE_EdcaTxopN/TxopLimit" := by decide
  simp only [appliedProfile, p1, p2, p3, p4, p5, p6, p7, p8, p9, p10, p11, p12]
  simp [edcaConfig, h, assigned, MicroSeconds]

theorem assigned_eq_none_of_no_configSet (path : String) (trace : List Effect)
    (h : trace.filter Effect.isConfigSet = []) : assigned path trace = none := by
  rw [assigned_filter, h]; rfl

theorem appliedProfile_filter (trace : List Effect) (ac : String) :
    appliedProfile trace ac = appliedProfile (trace.filter Effect.isConfigSet) ac := by
  simp only [appliedProfile]
  rw [← assigned_filter, ← assigned_filter, ← assigned_filter, ← assigned_filter]


/-- C9: with `enableEdca` set, the attribute assignments made in a run are exactly
twelve, in this order: `MinCw`, `MaxCw`, `Aifsn` and `TxopLimit` of `VO`, then of `VI`,
then of `BE`, each with the configured value of its own category, the TXOP value
taken as microseconds (a `Time` of `1000 * txop` nanoseconds); the profile applied to
each category is made of its own four values. -/
theorem edca_assignments (showDouble : Double → String) (o : Options)
    (stats : FlowStatsContainer) (FindFlow : FlowId → FiveTuple) (h : o.enableEdca = true) :
    (main showDouble o stats FindFlow).1.filter Effect.isConfigSet =
      [ Effect.configSet (edcaPath "VO" "MinCw") (AttributeValue.UintegerValue o.voMinCw),
        Effect.configSet (edcaPath "VO" "MaxCw") (AttributeValue.UintegerValue o.voMaxCw),
        Effect.configSet (edcaPath "VO" "Aifsn") (AttributeValue.UintegerValue o.voAifsn),
        Effect.configSet (edcaPath "VO" "TxopLimit")
          (AttributeValue.TimeValue ((o.voTxop : Int) * 1000)),
        Effect.configSet (edcaPath "VI" "MinCw") (AttributeValue.UintegerValue o.viMinCw),
        Effect.configSet (edcaPath "VI" "MaxCw") (AttributeValue.UintegerValue o.viMaxCw),
        Effect.configSet (edcaPath "VI" "Aifsn") (AttributeValue.UintegerValue o.viAifsn),
        Effect.configSet (edcaPath "VI" "TxopLimit")
          (AttributeValue.TimeValue ((o.viTxop : Int) * 1000)),
        Effect.configSet (edcaPath "BE" "MinCw") (AttributeValue.UintegerValue o.beMinCw),
        Effect.configSet (edcaPath "BE" "MaxCw") (AttributeValue.UintegerValue o.beMaxCw),
        Effect.configSet (edcaPath "BE" "Aifsn") (AttributeValue.UintegerValue o.beAifsn),
        Effect.configSet (edcaPath "BE" "TxopLimit")
          (AttributeValue.TimeValue ((o.beTxop : Int) * 1000)) ]
    ∧ ((main showDouble o stats FindFlow).1.filter Effect.isConfigSet).length = 12
    ∧ appliedProfile (main showDouble o stats FindFlow).1 "VO" =
        some ⟨o.voMinCw, o.voMaxCw, o.voAifsn, (o.voTxop : Int) * 1000⟩
    ∧ appliedProfile (main showDouble o stats FindFlow).1 "VI" =
        some ⟨o.viMinCw, o.viMaxCw, o.viAifsn, (o.viTxop : Int) * 1000⟩
    ∧ appliedProfile (main showDouble o stats FindFlow).1 "BE" =
        some ⟨o.beMinCw, o.beMaxCw, o.beAifsn, (o.beTxop : Int) * 1000⟩ := by
  have hl := edcaConfig_enabled o h
  have hp := appliedProfile_edcaConfig o h
  refine ⟨?_, ?_, ?_, ?_, ?_⟩
  · rw [main_configSets, hl]
  · rw [main_configSets, hl]; rfl
  · rw [appliedProfile_filter, main_configSets]; exact hp.1
  · rw [appliedProfile_filter, main_configSets]; exact hp.2.1
  · rw [appliedProfile_filter, main_configSets]; exact hp.2.2

theorem edca_assignments_witness :
    invertedVoiceOptions.enableEdca = true ∧
    ((main (fun _ => "0") invertedVoiceOptions noFlows voipClassifier).1.filter
        Effect.isConfigSet).length = 12 ∧
    appliedProfile (main (fun _ => "0") invertedVoiceOptions noFlows voipClassifier).1 "VI" =
      some ⟨invertedVoiceOptions.viMinCw, invertedVoiceOptions.viMaxCw,
        invertedVoiceOptions.viAifsn, (invertedVoiceOptions.viTxop : Int) * 1000⟩ :=
  ⟨rfl, (edca_assignments (fun _ => "0") invertedVoiceOptions noFlows voipClassifier rfl).2.1,
    (edca_assignments (fun _ => "0") invertedVoiceOptions noFlows voipClassifier rfl).2.2.2.1⟩

/-- C7 (as stated, refuted): with `enableEdca = false` (other options at their defaults)
the run makes no attribute assignment, so no profile at all is applied to `VO`, `VI`
or `BE`; in particular there is no common profile with a zero TXOP limit that the
program applies to the three categories. -/
theorem disabled_edca_applies_no_profile :
    edcaDisabledOptions.enableEdca = false ∧
    appliedProfile (main (fun _ => "0") edcaDisabledOptions noFlows voipClassifier).1 "VO" = none ∧
    ¬ ∃ p : AccessCategoryProfile, p.transmissionOpportunityLimit = 0 ∧
        ∀ ac ∈ ["VO", "VI", "BE"],
          appliedProfile (main (fun _ => "0") edcaDisabledOptions noFlows voipClassifier).1 ac
            = some p := by
  have hnone : appliedProfile
      (main (fun _ => "0") edcaDisabledOptions noFlows voipClassifier).1 "VO" = none := by
    rw [appliedProfile_filter, main_configSets]; rfl
  refine ⟨rfl, hnone, ?_⟩
  rintro ⟨p, _, hp⟩
  have := hp "VO" (by simp)
  rw [hnone] at this
  exact absurd this (by simp)

/-- C7 (amended): with `enableEdca = false`, whatever the per-category options, the run
makes no attribute assignment at all: no contention window, AIFSN or TXOP limit is
set for any category, so the profile of every category is whatever the simulator
library gives it by default. -/
theorem disabled_edca_no_assignment (showDouble : Double → String) (o : Options)
    (stats : FlowStatsContainer) (FindFlow : FlowId → FiveTuple) (h : o.enableEdca = false) :
    (main showDouble o stats FindFlow).1.filter Effect.isConfigSet = []
    ∧ (∀ path value, Effect.configSet path value ∉ (main showDouble o stats FindFlow).1)
    ∧ (∀ ac, appliedProfile (main showDouble o stats FindFlow).1 ac = none) := by
  have hf : (main showDouble o stats FindFlow).1.filter Effect.isConfigSet = [] := by
    rw [main_configSets]; simp [edcaConfig, h]
  refine ⟨hf, ?_, ?_⟩
  · intro path value hmem
    have : Effect.configSet path value ∈
        (main showDouble o stats FindFlow).1.filter Effect.isConfigSet :=
      List.mem_filter.2 ⟨hmem, rfl⟩
    rw [hf] at this
    simp at this
  · intro ac
    rw [appliedProfile_filter, hf]; rfl

theorem disabled_edca_no_assignment_witness :
    edcaDisabledOptions.enableEdca = false ∧
    (main (fun _ => "0") edcaDisabledOptions noFlows voipClassifier).1.filter
      Effect.isConfigSet = [] :=
  ⟨rfl, (disabled_edca_no_assignment (fun _ => "0") edcaDisabledOptions noFlows
    voipClassifier rfl).1⟩

/-- C6 (as stated, refuted): the default configuration with `voMinCw = 7 > voMaxCw = 3`
is not rejected: the run assigns `MinCw = 7` and `MaxCw = 3` to `VO`, runs the
simulation, writes the output file and exits with status 0. -/
theorem inverted_window_not_rejected :
    invertedVoiceOptions.voMinCw > invertedVoiceOptions.voMaxCw ∧
    Effect.configSet "/NodeList/*/DeviceList/*/$ns3::WifiNetDevice/Mac/VO_EdcaTxopN/MinCw"
        (AttributeValue.UintegerValue 7) ∈
      (main (fun _ => "0") invertedVoiceOptions noFlows voipClassifier).1 ∧
    Effect.configSet "/NodeList/*/DeviceList/*/$ns3::WifiNetDevice/Mac/VO_EdcaTxopN/MaxCw"
        (AttributeValue.UintegerValue 3) ∈
      (main (fun _ => "0") invertedVoiceOptions noFlows voipClassifier).1 ∧
    Effect.simulatorRun ∈ (main (fun _ => "0") invertedVoiceOptions noFlows voipClassifier).1 ∧
    Effect.fileOutput "edca-results.json" "[\n\n]\n" ∈
      (main (fun _ => "0") invertedVoiceOptions noFlows voipClassifier).1 ∧
    (main (fun _ => "0") invertedVoiceOptions noFlows voipClassifier).2 = 0 := by
  refine ⟨by decide, ?_, ?_, ?_, ?_, rfl⟩
  · simp [main, edcaConfig, invertedVoiceOptions]
  · simp [main, edcaConfig, invertedVoiceOptions]
  · simp [main]
  · have h : exportJson (fun _ => "0") invertedVoiceOptions.nBgStations voipClassifier noFlows
        = "[\n\n]\n" := by decide
    have := main_fileOutput (fun _ => "0") invertedVoiceOptions noFlows voipClassifier
    rw [h] at this
    exact this

/-- C6 (amended): a configuration in which some access category has
`minCw > maxCw` is not rejected, there being no validation step: when `enableEdca` is
set its twelve attribute values are assigned as configured, and in every case the
simulation is run, the document is written to the output file and the exit status
is 0. -/
theorem inverted_window_run_proceeds (showDouble : Double → String) (o : Options)
    (stats : FlowStatsContainer) (FindFlow : FlowId → FiveTuple)
    (_hinv : o.voMinCw > o.voMaxCw ∨ o.viMinCw > o.viMaxCw ∨ o.beMinCw > o.beMaxCw) :
    (o.enableEdca = true →
      (∀ e ∈ edcaConfig o, e ∈ (main showDouble o stats FindFlow).1)
      ∧ appliedProfile (main showDouble o stats FindFlow).1 "VO" =
          some ⟨o.voMinCw, o.voMaxCw, o.voAifsn, (o.voTxop : Int) * 1000⟩
      ∧ appliedProfile (main showDouble o stats FindFlow).1 "VI" =
          some ⟨o.viMinCw, o.viMaxCw, o.viAifsn, (o.viTxop : Int) * 1000⟩
      ∧ appliedProfile (main showDouble o stats FindFlow).1 "BE" =
          some ⟨o.beMinCw, o.beMaxCw, o.beAifsn, (o.beTxop : Int) * 1000⟩)
    ∧ Effect.simulatorRun ∈ (main showDouble o stats FindFlow).1
    ∧ Effect.fileOutput o.output (exportJson showDouble o.nBgStations FindFlow stats) ∈
        (main showDouble o stats FindFlow).1
    ∧ (main showDouble o stats FindFlow).2 = 0 := by
  refine ⟨?_, main_simulatorRun _ _ _ _, main_fileOutput _ _ _ _, rfl⟩
  intro he
  have hp := appliedProfile_edcaConfig o he
  refine ⟨?_, ?_, ?_, ?_⟩
  · intro e hmem
    have : e ∈ (main showDouble o stats FindFlow).1.filter Effect.isConfigSet := by
      rw [main_configSets]; exact hmem
    exact (List.mem_filter.1 this).1
  · rw [appliedProfile_filter, main_configSets]; exact hp.1
  · rw [appliedProfile_filter, main_configSets]; exact hp.2.1
  · rw [appliedProfile_filter, main_configSets]; exact hp.2.2

theorem inverted_window_run_proceeds_witness :
    (invertedVoiceOptions.voMinCw > invertedVoiceOptions.voMaxCw ∨
      invertedVoiceOptions.viMinCw > invertedVoiceOptions.viMaxCw ∨
      invertedVoiceOptions.beMinCw > invertedVoiceOptions.beMaxCw) ∧
    Effect.simulatorRun ∈ (main (fun _ => "0") invertedVoiceOptions noFlows voipClassifier).1 :=
  ⟨Or.inl (by decide),
    (inverted_window_run_proceeds (fun _ => "0") invertedVoiceOptions noFlows voipClassifier
      (Or.inl (by decide))).2.1⟩



end EdcaConfig
